import Mathlib

/-!
# Random oblivious transfer with reusable setup (`internal/ot/random.go`)

A shallow embedding of the Random OT setup and of the receiver and sender
round functions, followed by the properties proved about them.

Conventions of the embedding:

* a Go `byte` is a `Fin 256`; every byte operation is written on the underlying natural
  number with an explicit `% 256`;
* a Go `[]byte` is a `List Byte`;
* the curve (`curve.Scalar`, `curve.Point`) is a parameter: scalars `S` form a commutative
  ring, points `P` an additive commutative group on which the scalars act, `G` is the base
  point; `s.Act(p)` is `s • p`, `s.ActOnBase()` is `s • G`;
* the transcript hash (`hash.Hash`) is a parameter, `HashModel`;
* the Schnorr proof system (`zksch`) is a parameter, `SchnorrModel`;
* values drawn from `rand.Reader` are explicit arguments;
* a Go `error` is its message, `Except String _`;
* a method with a pointer receiver returns the updated state next to its result.
-/

namespace OT

/-! ## Bytes -/

/-- A Go `byte`. -/
abbrev Byte := Fin 256

/-- Go `x ^ y` on bytes. -/
def bxor (x y : Byte) : Byte := ⟨(x.val ^^^ y.val) % 256, Nat.mod_lt _ (by decide)⟩

/-- Go `x & y` on bytes. -/
def band (x y : Byte) : Byte := ⟨(x.val &&& y.val) % 256, Nat.mod_lt _ (by decide)⟩

/-- Go `x | y` on bytes. -/
def bor (x y : Byte) : Byte := ⟨(x.val ||| y.val) % 256, Nat.mod_lt _ (by decide)⟩

/-- Go `-byte(choice)` for a `safenum.Choice` (a machine word): the conversion keeps the low
eight bits and the negation is taken modulo `2^8`. -/
def choiceMask (choice : Nat) : Byte := ⟨(256 - choice % 256) % 256, Nat.mod_lt _ (by decide)⟩

/-! ## Library code used by the protocol -/

/-- Modelled from the spec: the constant `params.SecBytes` (package `internal/params`), the
security parameter in bytes, which the spec gives as 32. -/
def SecBytes : Nat := 32

/-- Go `subtle.ConstantTimeByteEq(x, y)`: `int((uint32(x^y) - 1) >> 31)`. -/
def ConstantTimeByteEq (x y : Byte) : Nat :=
  (((bxor x y).val + 2 ^ 32 - 1) % 2 ^ 32) / 2 ^ 31

/-- Go `subtle.ConstantTimeCompare(x, y)`: `0` when the lengths differ, otherwise the OR of
the byte-wise XORs is compared with zero. -/
def ConstantTimeCompare (x y : List Byte) : Nat :=
  if x.length ≠ y.length then 0
  else ConstantTimeByteEq ((List.zipWith bxor x y).foldl bor 0) 0

/-- Modelled from the spec: `safenum.Nat.CondAssign(yes, x)` on a receiver `z` (package
`safenum`): the constant-time conditional assignment, giving `x` when the choice is 1 and
leaving `z` as it is otherwise. -/
def CondAssign (z : Nat) (yes : Nat) (x : Nat) : Nat := if yes = 1 then x else z

/-- The transcript hash `hash.Hash` (package `pkg/hash`), taken as a parameter.
`init` is `hash.New()`, `writePoint` and `writeBytes` are `WriteAny` on a curve point and on a
byte slice, and `out h i` is byte `i` of the output stream `h.Digest()`. `Clone` copies the
state, which is the state itself here. -/
structure HashModel (HS P : Type) where
  /-- The state of `hash.New()`. -/
  init : HS
  /-- The state after `WriteAny(p)` for a curve point `p`. -/
  writePoint : HS → P → HS
  /-- The state after `WriteAny(bs)` for a byte slice `bs`. -/
  writeBytes : HS → List Byte → HS
  /-- Byte `i` of the stream returned by `Digest()`. -/
  out : HS → Nat → Byte

/-- The statement `h.Digest().Read(buf)` with `len(buf) = n`: the first `n` bytes of the
output stream. -/
def HashModel.read {HS P : Type} (H : HashModel HS P) (h : HS) (n : Nat) : List Byte :=
  (List.range n).map (H.out h)

/-- The three statements `H := hash.New(); H.WriteAny(x); H.Digest().Read(buf)` with
`len(buf) = n`: the digest of the byte slice `x` under a fresh hash, read to `n` bytes. -/
def HashModel.hashBytes {HS P : Type} (H : HashModel HS P) (x : List Byte) (n : Nat) : List Byte :=
  H.read (H.writeBytes H.init x) n

/-- The Schnorr proof system `zksch` (package `pkg/zk/sch`), taken as a parameter.
`NewProof` draws its commitment randomness `ρ` from `rand.Reader`. -/
structure SchnorrModel (S P HS Proof Rnd : Type) where
  /-- The proof `zksch.NewProof(hash, public, private)` built with randomness `ρ`. -/
  NewProof : HS → P → S → Rnd → Proof
  /-- The check `proof.Verify(hash, public)`. -/
  Verify : Proof → HS → P → Bool

/-! ## Setup -/

section Protocol

variable {S P HS Proof Rnd : Type} [CommRing S] [AddCommGroup P] [Module S P]

/-- The message generated by the sender of the OT during setup. -/
structure RandomOTSetupSendMessage (P Proof : Type) where
  /-- A public key used for subsequent random OTs. -/
  _B : P
  /-- A proof of the discrete log of this public key. -/
  _BProof : Proof

/-- The result that should be saved for the sender. -/
structure RandomOTSetupSendResult (S P : Type) where
  /-- A secret key used for subsequent random OTs. -/
  b : S
  /-- The matching public key. -/
  _B : P

/-- The sender's part of the setup. `b` is the scalar drawn by `sample.Scalar` and `ρ` the
randomness drawn inside `zksch.NewProof`. The Go function has no error result. -/
def RandomOTSetupSend (Sch : SchnorrModel S P HS Proof Rnd) (G : P) (hash : HS) (b : S) (ρ : Rnd) :
    RandomOTSetupSendMessage P Proof × RandomOTSetupSendResult S P :=
  let B := b • G
  let BProof := Sch.NewProof hash B b ρ
  ({ _B := B, _BProof := BProof }, { _B := B, b := b })

/-- The result that should be saved for the receiver. -/
structure RandomOTSetupReceiveResult (P : Type) where
  /-- The public key for the sender, used for subsequent random OTs. -/
  _B : P

/-- The receiver's part of the setup. -/
def RandomOTSetupReceive (Sch : SchnorrModel S P HS Proof Rnd) (hash : HS)
    (msg : RandomOTSetupSendMessage P Proof) : Except String (RandomOTSetupReceiveResult P) :=
  if !Sch.Verify msg._BProof hash msg._B then
    .error "RandomOTSetupReceive: Schnorr proof failed to verify"
  else
    .ok { _B := msg._B }

/-! ## Receiver -/

/-- The state needed for a single execution of a Random OT, receiver side. The `group` field
of the Go struct is the curve of `_B`, which is the type `P` here. -/
structure RandomOTReceiever (P HS : Type) where
  /-- The transcript. -/
  hash : HS
  /-- Which random message we want to receive: a `safenum.Choice`, a machine word. -/
  choice : Nat
  /-- The public key of the sender. -/
  _B : P
  /-- The random message we have received (after Round1). -/
  randChoice : List Byte
  /-- The challenge sent to us by the sender (after Round2). -/
  receivedChallenge : List Byte
  /-- The double hash of `randChoice` (after Round2). -/
  hh_randChoice : List Byte

/-- Sets up the receiver's state for a single Random OT; the slices start out `nil`. -/
def NewRandomOTReceiver (hash : HS) (choice : Nat) (result : RandomOTSetupReceiveResult P) :
    RandomOTReceiever P HS :=
  { hash := hash, choice := choice, _B := result._B,
    randChoice := [], receivedChallenge := [], hh_randChoice := [] }

/-- The first message sent by the receiver. -/
structure RandomOTReceiveRound1Message (P : Type) where
  /-- The point `A`. -/
  _A : P

/-- The message sent by the sender in round 1. -/
structure RandomOTSendRound1Message where
  /-- The challenge. -/
  challenge : List Byte

/-- The second message sent by the receiver. -/
structure RandomOTReceiveRound2Message where
  /-- A response to the challenge submitted by the sender. -/
  response : List Byte

/-- The message sent by the sender in round 2. -/
structure RandomOTSendRound2Message where
  /-- The opening of the first commitment. -/
  decommit0 : List Byte
  /-- The opening of the second commitment. -/
  decommit1 : List Byte

/-- The receiver's side of round 1; `a` is the scalar drawn by `sample.Scalar`. The transcript
of the receiver absorbs `a • B` (the Go code writes into `r.hash` itself, not into a clone). -/
def RandomOTReceiever.Round1 (H : HashModel HS P) (G : P) (r : RandomOTReceiever P HS) (a : S) :
    RandomOTReceiever P HS × RandomOTReceiveRound1Message P :=
  let A := a • G
  let one : Nat := 1
  let choiceScalar : S := ((CondAssign 0 r.choice one : Nat) : S)
  let A := A + choiceScalar • r._B
  let hash := H.writePoint r.hash (a • r._B)
  let randChoice := H.read hash SecBytes
  ({ r with hash := hash, randChoice := randChoice }, { _A := A })

/-- The receiver's side of round 2. -/
def RandomOTReceiever.Round2 (H : HashModel HS P) (r : RandomOTReceiever P HS)
    (msg : RandomOTSendRound1Message) : RandomOTReceiever P HS × RandomOTReceiveRound2Message :=
  let receivedChallenge := msg.challenge
  let n := msg.challenge.length
  let response := H.hashBytes r.randChoice n
  let response := H.hashBytes response n
  let hh_randChoice := response
  let mask := choiceMask r.choice
  let response := List.zipWith (fun x c => bxor x (band mask c)) response msg.challenge
  ({ r with receivedChallenge := receivedChallenge, hh_randChoice := hh_randChoice },
   { response := response })

/-- The value `actualChallenge` of round 3: the XOR of the digests of the two openings, each
read to the length of the stored challenge. -/
def RandomOTReceiever.actualChallenge (H : HashModel HS P) (r : RandomOTReceiever P HS)
    (msg : RandomOTSendRound2Message) : List Byte :=
  let n := r.receivedChallenge.length
  let h_decommit0 := H.hashBytes msg.decommit0 n
  let h_decommit1 := H.hashBytes msg.decommit1 n
  List.zipWith bxor h_decommit0 h_decommit1

/-- The value `h_decommitChoice` of round 3 after the masked selection loop. -/
def RandomOTReceiever.h_decommitChoice (H : HashModel HS P) (r : RandomOTReceiever P HS)
    (msg : RandomOTSendRound2Message) : List Byte :=
  let n := r.receivedChallenge.length
  let h_decommit0 := H.hashBytes msg.decommit0 n
  let h_decommit1 := H.hashBytes msg.decommit1 n
  let mask := choiceMask r.choice
  List.zipWith (fun x y => bxor x (band mask (bxor x y))) h_decommit0 h_decommit1

/-- The receiver's final round: both checks, then the random choice. -/
def RandomOTReceiever.Round3 (H : HashModel HS P) (r : RandomOTReceiever P HS)
    (msg : RandomOTSendRound2Message) : Except String (List Byte) :=
  if ConstantTimeCompare r.receivedChallenge (r.actualChallenge H msg) ≠ 1 then
    .error "RandomOTReceive Round 3: incorrect decommitment"
  else if ConstantTimeCompare (r.h_decommitChoice H msg) r.hh_randChoice ≠ 1 then
    .error "RandomOTReceive Round 3: incorrect decommitment"
  else
    .ok r.randChoice

/-! ## Sender -/

/-- The state needed for a single execution of a Random OT, sender side. -/
structure RandomOTSender (S P HS : Type) where
  /-- The transcript. -/
  hash : HS
  /-- The secret key of the setup. -/
  b : S
  /-- The public key of the setup. -/
  _B : P
  /-- The first pad (after round 1). -/
  rand0 : List Byte
  /-- The second pad (after round 1). -/
  rand1 : List Byte
  /-- The opening of the first commitment. -/
  decommit0 : List Byte
  /-- The opening of the second commitment. -/
  decommit1 : List Byte
  /-- The digest of `decommit0`. -/
  h_decommit0 : List Byte

/-- Sets up the sender's state for a single Random OT; the slices start out `nil`. -/
def NewRandomOTSender (hash : HS) (result : RandomOTSetupSendResult S P) : RandomOTSender S P HS :=
  { hash := hash, b := result.b, _B := result._B,
    rand0 := [], rand1 := [], decommit0 := [], decommit1 := [], h_decommit0 := [] }

/-- The loop `for i := 0; i < len(dst) && i < len(src); i++ { dst[i] ^= src[i] }`: the bytes
of `dst` beyond the length of `src` are kept. -/
def xorInto : List Byte → List Byte → List Byte
  | [], _ => []
  | d :: ds, [] => d :: ds
  | d :: ds, s :: ss => bxor d s :: xorInto ds ss

/-- The sender's side of round 1. Both pads are read from clones of the sender's transcript,
which is left as it was. -/
def RandomOTSender.Round1 (H : HashModel HS P) (r : RandomOTSender S P HS)
    (msg : RandomOTReceiveRound1Message P) : RandomOTSender S P HS × RandomOTSendRound1Message :=
  let rand0 := H.read (H.writePoint r.hash (r.b • msg._A)) SecBytes
  let rand1 := H.read (H.writePoint r.hash (r.b • (msg._A - r._B))) SecBytes
  let decommit0 := H.hashBytes rand0 SecBytes
  let decommit1 := H.hashBytes rand1 SecBytes
  let h_decommit0 := H.hashBytes decommit0 SecBytes
  let challenge := H.hashBytes decommit1 SecBytes
  let challenge := xorInto challenge h_decommit0
  ({ r with rand0 := rand0, rand1 := rand1, decommit0 := decommit0, decommit1 := decommit1,
            h_decommit0 := h_decommit0 },
   { challenge := challenge })

/-- The result for a sender in a Random OT. -/
structure RandomOTSendResult where
  /-- The first random message. -/
  Rand0 : List Byte
  /-- The second random message. -/
  Rand1 : List Byte

/-- The sender's side of round 2. -/
def RandomOTSender.Round2 (r : RandomOTSender S P HS) (msg : RandomOTReceiveRound2Message) :
    Except String (RandomOTSendRound2Message × RandomOTSendResult) :=
  if ConstantTimeCompare msg.response r.h_decommit0 ≠ 1 then
    .error "RandomOTSender Round2: invalid response"
  else
    .ok ({ decommit0 := r.decommit0, decommit1 := r.decommit1 },
         { Rand0 := r.rand0, Rand1 := r.rand1 })

end Protocol

/-! ## Scenarios and a concrete instance -/

/-- The messages crossing the sender's boundary in an honest execution with setup secret `b`,
transcript `t` on both sides, choice `c` and receiver scalar `a`: the point `A` the sender
receives, the challenge it sends, and the response it receives. -/
def senderView {S P HS : Type} [CommRing S] [AddCommGroup P] [Module S P]
    (H : HashModel HS P) (G : P) (t : HS) (b : S) (c : Nat) (a : S) :
    P × List Byte × List Byte :=
  let B := b • G
  let r1 := (NewRandomOTReceiver t c { _B := B }).Round1 H G a
  let s1 := (NewRandomOTSender t { b := b, _B := B }).Round1 H r1.2
  let r2 := r1.1.Round2 H s1.2
  (r1.2._A, s1.2.challenge, r2.2.response)

/-- A small concrete transcript hash over the group `ZMod 7`: the state is the list of
absorbed words and the output stream mixes the state with the position. -/
def demoHash : HashModel (List Nat) (ZMod 7) where
  init := []
  writePoint h p := (p.val + 1) :: h
  writeBytes h bs := 0 :: (bs.map (fun x => x.val + 8) ++ h)
  out h i := Fin.ofNat ((h.foldl (fun acc x => (31 * acc + x + 7) % 65521) 5) + 13 * i)

end OT

/-!
# Starting a signing session (`protocols/cmp/sign/sign.go`, `protocols/cmp/cmp.go`)

The packages `config`, `round`, `polynomial`, `paillier`, `pedersen` and `pool` are not part of
the sources at hand; their types are type parameters and the functions the start function
calls are the fields of `SignDeps`. A map is a function of its key. Next to its result the
start function returns the calls it made to `round.NewSession` and `config.CanSign`, in order.
-/

namespace CMP

/-- The value `protocolSignID`. -/
def protocolSignID : String := "cmp/sign"

/-- The value `protocolSignRounds`. -/
def protocolSignRounds : Nat := 5

/-- The public data of one party in a `config.Config`, as far as the start function reads
it. -/
structure Public (P PaillierKey PedersenParams : Type) where
  /-- The public ECDSA share. -/
  ECDSA : P
  /-- The Paillier public key. -/
  Paillier : PaillierKey
  /-- The Pedersen parameters. -/
  Pedersen : PedersenParams

/-- The struct `round.Info` as the start function fills it. The field `Group` is the curve,
which is the pair of types `S`, `P` here. -/
structure Info (P PartyID : Type) where
  /-- The protocol identifier. -/
  ProtocolID : String
  /-- The number of the final round. -/
  FinalRoundNumber : Nat
  /-- The identifier of this party. -/
  SelfID : PartyID
  /-- The signers. -/
  PartyIDs : List PartyID
  /-- The threshold, a Go `int`. -/
  Threshold : Int
  /-- The flag `JustInfo`. -/
  JustInfo : Bool
  /-- The public point of the key. -/
  PublicPoint : P

/-- The functions of other packages that the start function calls. -/
structure SignDeps (S P Config PartyID Pool Helper PaillierKey PaillierSecret PedersenParams : Type) where
  /-- The field `config.ID`. -/
  ID : Config → PartyID
  /-- The field `config.Threshold`. -/
  Threshold : Config → Int
  /-- The field `config.ECDSA`, the secret share. -/
  ECDSA : Config → S
  /-- The field `config.Paillier`, the secret Paillier key. -/
  Paillier : Config → PaillierSecret
  /-- The map `config.Public`. -/
  Public : Config → PartyID → Public P PaillierKey PedersenParams
  /-- The method `config.PublicPoint()`. -/
  PublicPoint : Config → P
  /-- The method `config.CanSign(ids)`. -/
  CanSign : Config → List PartyID → Bool
  /-- The function `round.NewSession(info, sessionID, pl, config, message)`. -/
  NewSession : Info P PartyID → List OT.Byte → Pool → Config → List OT.Byte → Except String Helper
  /-- The method `helper.PartyIDs()`. -/
  PartyIDs : Helper → List PartyID
  /-- The map returned by `polynomial.Lagrange(group, signers)`. -/
  Lagrange : List PartyID → PartyID → S

/-- The struct `round1` that the start function returns on success. The three maps are
functions of the party; outside `helper.PartyIDs()` they hold nothing. -/
structure round1 (S P PartyID Helper PaillierKey PaillierSecret PedersenParams : Type) where
  /-- The session helper. -/
  Helper : Helper
  /-- The sum of the scaled public shares. -/
  PublicKey : P
  /-- The scaled secret share. -/
  SecretECDSA : S
  /-- The secret Paillier key. -/
  SecretPaillier : PaillierSecret
  /-- The Paillier public keys of the signers. -/
  Paillier : PartyID → Option PaillierKey
  /-- The Pedersen parameters of the signers. -/
  Pedersen : PartyID → Option PedersenParams
  /-- The scaled public shares of the signers. -/
  ECDSA : PartyID → Option P
  /-- The message to sign. -/
  Message : List OT.Byte
  /-- The flag `JustInfo`. -/
  JustInfo : Bool
  /-- The public point of the key. -/
  PublicPoint : P

/-- A call the start function makes to another package. -/
inductive SignCall where
  /-- A call of `round.NewSession`. -/
  | newSession
  /-- A call of `config.CanSign`. -/
  | canSign
  deriving DecidableEq

section Start

variable {S P Config PartyID Pool Helper PaillierKey PaillierSecret PedersenParams : Type}
variable [CommRing S] [AddCommGroup P] [Module S P] [DecidableEq PartyID]

/-- The function returned by `StartSign(config, signers, message, pl, justinfo)`, applied to
a session identifier. The second component lists the calls made, in order. -/
def StartSign (D : SignDeps S P Config PartyID Pool Helper PaillierKey PaillierSecret PedersenParams)
    (config : Config) (signers : List PartyID) (message : List OT.Byte) (pl : Pool)
    (justinfo : Bool) (sessionID : List OT.Byte) :
    Except String (round1 S P PartyID Helper PaillierKey PaillierSecret PedersenParams) × List SignCall :=
  if message.length = 0 then
    (.error "sign.Create: message is nil", [])
  else
    let info : Info P PartyID :=
      { ProtocolID := protocolSignID, FinalRoundNumber := protocolSignRounds,
        SelfID := D.ID config, PartyIDs := signers, Threshold := D.Threshold config,
        JustInfo := justinfo, PublicPoint := D.PublicPoint config }
    match D.NewSession info sessionID pl config message with
    | .error err => (.error ("sign.Create: " ++ err), [.newSession])
    | .ok helper =>
      if !D.CanSign config (D.PartyIDs helper) then
        (.error "sign.Create: signers is not a valid signing subset", [.newSession, .canSign])
      else
        let lagrange := D.Lagrange signers
        let SecretECDSA := lagrange (D.ID config) * D.ECDSA config
        let SecretPaillier := D.Paillier config
        let ids := D.PartyIDs helper
        let scaled : PartyID → P := fun j => lagrange j • (D.Public config j).ECDSA
        let PublicKey := ids.foldl (fun acc j => acc + scaled j) 0
        (.ok { Helper := helper, PublicKey := PublicKey, SecretECDSA := SecretECDSA,
               SecretPaillier := SecretPaillier,
               Paillier := fun j => if j ∈ ids then some (D.Public config j).Paillier else none,
               Pedersen := fun j => if j ∈ ids then some (D.Public config j).Pedersen else none,
               ECDSA := fun j => if j ∈ ids then some (scaled j) else none,
               Message := message, JustInfo := justinfo,
               PublicPoint := D.PublicPoint config },
         [.newSession, .canSign])

/-- The function `cmp.Sign(config, signers, messageHash, pl, forkeys)`, applied to a session
identifier. -/
def Sign (D : SignDeps S P Config PartyID Pool Helper PaillierKey PaillierSecret PedersenParams)
    (config : Config) (signers : List PartyID) (messageHash : List OT.Byte) (pl : Pool)
    (forkeys : Bool) (sessionID : List OT.Byte) :
    Except String (round1 S P PartyID Helper PaillierKey PaillierSecret PedersenParams) × List SignCall :=
  StartSign D config signers messageHash pl forkeys sessionID

end Start

end CMP

namespace OT

/-! ## Facts about bytes -/

theorem nat_or_eq_zero {x y : Nat} (h : x ||| y = 0) : x = 0 ∧ y = 0 := by
  have hb : ∀ i, (x.testBit i || y.testBit i) = false := by
    intro i
    rw [← Nat.testBit_or, h, Nat.zero_testBit]
  constructor
  · apply Nat.zero_of_testBit_eq_false
    intro i
    have := hb i
    simp only [Bool.or_eq_false_iff] at this
    exact this.1
  · apply Nat.zero_of_testBit_eq_false
    intro i
    have := hb i
    simp only [Bool.or_eq_false_iff] at this
    exact this.2

theorem bxor_val (x y : Byte) : (bxor x y).val = x.val ^^^ y.val := by
  have h : x.val ^^^ y.val < 2 ^ 8 := Nat.xor_lt_two_pow x.isLt y.isLt
  show (x.val ^^^ y.val) % 256 = _
  exact Nat.mod_eq_of_lt h

theorem bor_val (x y : Byte) : (bor x y).val = x.val ||| y.val := by
  have h : x.val ||| y.val < 2 ^ 8 := Nat.or_lt_two_pow x.isLt y.isLt
  show (x.val ||| y.val) % 256 = _
  exact Nat.mod_eq_of_lt h

theorem band_val (x y : Byte) : (band x y).val = x.val &&& y.val := by
  have h : x.val &&& y.val < 2 ^ 8 := Nat.and_lt_two_pow _ y.isLt
  show (x.val &&& y.val) % 256 = _
  exact Nat.mod_eq_of_lt h

theorem bxor_self (x : Byte) : bxor x x = 0 := by
  apply Fin.ext
  rw [bxor_val, Nat.xor_self]
  rfl

theorem bxor_zero (x : Byte) : bxor x 0 = x := by
  apply Fin.ext
  rw [bxor_val]
  exact Nat.xor_zero _

theorem bxor_comm (x y : Byte) : bxor x y = bxor y x := by
  apply Fin.ext
  rw [bxor_val, bxor_val, Nat.xor_comm]

theorem bxor_assoc (x y z : Byte) : bxor (bxor x y) z = bxor x (bxor y z) := by
  apply Fin.ext
  rw [bxor_val, bxor_val, bxor_val, bxor_val, Nat.xor_assoc]

theorem bxor_eq_zero {x y : Byte} : bxor x y = 0 ↔ x = y := by
  constructor
  · intro h
    apply Fin.ext
    have h2 : (bxor x y).val = 0 := by rw [h]; rfl
    rw [bxor_val] at h2
    exact Nat.xor_eq_zero.mp h2
  · rintro rfl
    exact bxor_self x

theorem bor_eq_zero {x y : Byte} : bor x y = 0 ↔ x = 0 ∧ y = 0 := by
  constructor
  · intro h
    have h2 : (bor x y).val = 0 := by rw [h]; rfl
    rw [bor_val] at h2
    obtain ⟨hx, hy⟩ := nat_or_eq_zero h2
    exact ⟨Fin.ext hx, Fin.ext hy⟩
  · rintro ⟨rfl, rfl⟩
    rfl

theorem choiceMask_zero : choiceMask 0 = 0 := rfl

theorem choiceMask_one : choiceMask 1 = 255 := rfl

theorem band_zero_left (x : Byte) : band 0 x = 0 := by
  apply Fin.ext
  rw [band_val]
  exact Nat.zero_and _

theorem band_ff_left (x : Byte) : band 255 x = x := by
  apply Fin.ext
  rw [band_val, Nat.and_comm]
  have h := Nat.and_pow_two_sub_one_eq_mod x.val 8
  have h255 : (255 : Byte).val = 2 ^ 8 - 1 := rfl
  rw [h255, h]
  exact Nat.mod_eq_of_lt x.isLt

/-! ## Constant-time comparison -/

theorem ConstantTimeByteEq_zero (v : Byte) : ConstantTimeByteEq v 0 = 1 ↔ v = 0 := by
  unfold ConstantTimeByteEq
  rw [bxor_zero]
  have hv := v.isLt
  constructor
  · intro h
    apply Fin.ext
    show v.val = 0
    by_contra hne
    have : (v.val + 2 ^ 32 - 1) % 2 ^ 32 = v.val - 1 := by omega
    rw [this] at h
    omega
  · rintro rfl
    rfl

theorem ConstantTimeByteEq_zero_le (v : Byte) : ConstantTimeByteEq v 0 ≤ 1 := by
  unfold ConstantTimeByteEq
  omega

theorem foldl_bor_eq_zero (l : List Byte) (acc : Byte) :
    l.foldl bor acc = 0 ↔ acc = 0 ∧ ∀ x ∈ l, x = 0 := by
  induction l generalizing acc with
  | nil => simp
  | cons x xs ih =>
    rw [List.foldl_cons, ih, bor_eq_zero]
    simp only [List.mem_cons, forall_eq_or_imp]
    tauto

theorem zipWith_bxor_all_zero (x y : List Byte) (hlen : x.length = y.length) :
    (∀ v ∈ List.zipWith bxor x y, v = 0) ↔ x = y := by
  induction x generalizing y with
  | nil =>
    cases y with
    | nil => simp
    | cons b bs => simp at hlen
  | cons a as ih =>
    cases y with
    | nil => simp at hlen
    | cons b bs =>
      simp only [List.length_cons, Nat.add_right_cancel_iff] at hlen
      simp only [List.zipWith_cons_cons, List.mem_cons, forall_eq_or_imp, bxor_eq_zero, ih bs hlen,
        List.cons.injEq]

theorem ConstantTimeCompare_eq_one (x y : List Byte) : ConstantTimeCompare x y = 1 ↔ x = y := by
  unfold ConstantTimeCompare
  by_cases hlen : x.length = y.length
  · simp only [hlen, ne_eq, not_true_eq_false, if_false]
    rw [ConstantTimeByteEq_zero, foldl_bor_eq_zero, zipWith_bxor_all_zero x y hlen]
    simp
  · simp only [ne_eq, hlen, not_false_eq_true, if_true]
    constructor
    · intro h; exact absurd h (by decide)
    · rintro rfl; exact absurd rfl hlen

theorem ConstantTimeCompare_self (x : List Byte) : ConstantTimeCompare x x = 1 :=
  (ConstantTimeCompare_eq_one x x).mpr rfl

theorem ConstantTimeCompare_ne_one (x y : List Byte) : ConstantTimeCompare x y ≠ 1 ↔ x ≠ y :=
  not_congr (ConstantTimeCompare_eq_one x y)

/-! ## Facts about the byte loops -/

theorem HashModel.read_length {HS P : Type} (H : HashModel HS P) (h : HS) (n : Nat) :
    (H.read h n).length = n := by
  simp [HashModel.read]

theorem xorInto_eq_zipWith (x y : List Byte) (hlen : x.length = y.length) :
    xorInto x y = List.zipWith bxor x y := by
  induction x generalizing y with
  | nil => cases y <;> rfl
  | cons a as ih =>
    cases y with
    | nil => simp at hlen
    | cons b bs =>
      simp only [List.length_cons, Nat.add_right_cancel_iff] at hlen
      simp only [xorInto, List.zipWith_cons_cons, ih bs hlen]

theorem zipWith_left (x y : List Byte) (hlen : x.length = y.length) :
    List.zipWith (fun a _ => a) x y = x := by
  induction x generalizing y with
  | nil => cases y <;> rfl
  | cons a as ih =>
    cases y with
    | nil => simp at hlen
    | cons b bs =>
      simp only [List.length_cons, Nat.add_right_cancel_iff] at hlen
      simp only [List.zipWith_cons_cons, ih bs hlen]

theorem zipWith_right (x y : List Byte) (hlen : x.length = y.length) :
    List.zipWith (fun _ b => b) x y = y := by
  induction x generalizing y with
  | nil => cases y with
    | nil => rfl
    | cons b bs => simp at hlen
  | cons a as ih =>
    cases y with
    | nil => simp at hlen
    | cons b bs =>
      simp only [List.length_cons, Nat.add_right_cancel_iff] at hlen
      simp only [List.zipWith_cons_cons, ih bs hlen]

theorem zipWith_bxor_comm (x y : List Byte) : List.zipWith bxor x y = List.zipWith bxor y x := by
  induction x generalizing y with
  | nil => cases y <;> rfl
  | cons a as ih =>
    cases y with
    | nil => rfl
    | cons b bs => simp only [List.zipWith_cons_cons, ih bs, bxor_comm a b]

theorem zipWith_bxor_cancel (x y : List Byte) (hlen : x.length = y.length) :
    List.zipWith bxor x (List.zipWith bxor x y) = y := by
  induction x generalizing y with
  | nil => cases y with
    | nil => rfl
    | cons b bs => simp at hlen
  | cons a as ih =>
    cases y with
    | nil => simp at hlen
    | cons b bs =>
      simp only [List.length_cons, Nat.add_right_cancel_iff] at hlen
      simp only [List.zipWith_cons_cons, ih bs hlen, ← bxor_assoc, bxor_self]
      rw [bxor_comm 0 b, bxor_zero]

/-- The response loop of the receiver's round 2 for choice 0: nothing is added. -/
theorem mask_loop_zero (x ch : List Byte) (hlen : x.length = ch.length) :
    List.zipWith (fun a c => bxor a (band (choiceMask 0) c)) x ch = x := by
  have hf : (fun (a c : Byte) => bxor a (band (choiceMask 0) c)) = fun a _ => a := by
    funext a c
    rw [choiceMask_zero, band_zero_left, bxor_zero]
  rw [hf, zipWith_left x ch hlen]

/-- The response loop of the receiver's round 2 for choice 1: the challenge is added. -/
theorem mask_loop_one (x ch : List Byte) :
    List.zipWith (fun a c => bxor a (band (choiceMask 1) c)) x ch = List.zipWith bxor x ch := by
  have hf : (fun (a c : Byte) => bxor a (band (choiceMask 1) c)) = bxor := by
    funext a c
    rw [choiceMask_one, band_ff_left]
  rw [hf]

/-- The selection loop of round 3 for choice 0 keeps the first operand. -/
theorem select_loop_zero (x y : List Byte) (hlen : x.length = y.length) :
    List.zipWith (fun a b => bxor a (band (choiceMask 0) (bxor a b))) x y = x := by
  have hf : (fun (a b : Byte) => bxor a (band (choiceMask 0) (bxor a b))) = fun a _ => a := by
    funext a b
    rw [choiceMask_zero, band_zero_left, bxor_zero]
  rw [hf, zipWith_left x y hlen]

/-- The selection loop of round 3 for choice 1 takes the second operand. -/
theorem select_loop_one (x y : List Byte) (hlen : x.length = y.length) :
    List.zipWith (fun a b => bxor a (band (choiceMask 1) (bxor a b))) x y = y := by
  have hf : (fun (a b : Byte) => bxor a (band (choiceMask 1) (bxor a b))) = fun _ b => b := by
    funext a b
    rw [choiceMask_one, band_ff_left, ← bxor_assoc, bxor_self, bxor_comm, bxor_zero]
  rw [hf, zipWith_right x y hlen]

theorem HashModel.hashBytes_length {HS P : Type} (H : HashModel HS P) (x : List Byte) (n : Nat) :
    (H.hashBytes x n).length = n := by
  simp [HashModel.hashBytes, HashModel.read]

/-! ## Facts about the rounds -/

section ProtocolFacts

variable {S P HS Proof Rnd : Type} [CommRing S] [AddCommGroup P] [Module S P]

/-- The point `A` of the receiver's round 1, for the two values of the choice. -/
theorem receiver_Round1_A (H : HashModel HS P) (G : P) (r : RandomOTReceiever P HS) (a : S) :
    (r.choice = 0 → (r.Round1 H G a).2._A = a • G) ∧
    (r.choice = 1 → (r.Round1 H G a).2._A = a • G + r._B) := by
  constructor
  · intro h
    simp [RandomOTReceiever.Round1, CondAssign, h]
  · intro h
    simp [RandomOTReceiever.Round1, CondAssign, h]

/-- In an honest execution the receiver's pad is the sender's pad of the same index. -/
theorem honest_pad (H : HashModel HS P) (G : P) (t : HS) (b a : S) (c : Nat)
    (hc : c = 0 ∨ c = 1) :
    ((NewRandomOTReceiver t c { _B := b • G }).Round1 H G a).1.randChoice =
      if c = 0 then
        ((NewRandomOTSender t { b := b, _B := b • G }).Round1 H
          ((NewRandomOTReceiver t c { _B := b • G }).Round1 H G a).2).1.rand0
      else
        ((NewRandomOTSender t { b := b, _B := b • G }).Round1 H
          ((NewRandomOTReceiver t c { _B := b • G }).Round1 H G a).2).1.rand1 := by
  rcases hc with rfl | rfl
  · simp [RandomOTReceiever.Round1, RandomOTSender.Round1, NewRandomOTReceiver,
      NewRandomOTSender, CondAssign, smul_comm a b G]
  · simp [RandomOTReceiever.Round1, RandomOTSender.Round1, NewRandomOTReceiver,
      NewRandomOTSender, CondAssign, smul_comm a b G]

/-- The challenge of the sender's round 1 in terms of the stored values. -/
theorem sender_Round1_challenge (H : HashModel HS P) (r : RandomOTSender S P HS)
    (msg : RandomOTReceiveRound1Message P) :
    (r.Round1 H msg).2.challenge =
      List.zipWith bxor (H.hashBytes (r.Round1 H msg).1.decommit1 SecBytes)
        (r.Round1 H msg).1.h_decommit0 := by
  simp only [RandomOTSender.Round1]
  rw [xorInto_eq_zipWith]
  rw [H.hashBytes_length, H.hashBytes_length]

theorem sender_Round1_challenge_length (H : HashModel HS P) (r : RandomOTSender S P HS)
    (msg : RandomOTReceiveRound1Message P) :
    (r.Round1 H msg).2.challenge.length = SecBytes := by
  rw [sender_Round1_challenge]
  simp [RandomOTSender.Round1, H.hashBytes_length]

/-- The receiver's round 2 answers an honest challenge with the sender's `h_decommit0` as soon
as its pad is the sender's pad of index `choice`. -/
theorem receiver_Round2_response (H : HashModel HS P) (rs : RandomOTSender S P HS)
    (m1 : RandomOTReceiveRound1Message P) (r : RandomOTReceiever P HS)
    (hc : r.choice = 0 ∨ r.choice = 1)
    (hpad : r.randChoice =
      if r.choice = 0 then (rs.Round1 H m1).1.rand0 else (rs.Round1 H m1).1.rand1) :
    (r.Round2 H (rs.Round1 H m1).2).2.response = (rs.Round1 H m1).1.h_decommit0 := by
  have hlen := sender_Round1_challenge_length H rs m1
  have hch := sender_Round1_challenge H rs m1
  rcases hc with h | h
  · simp only [h, if_true] at hpad
    simp only [RandomOTReceiever.Round2, h, hpad, hlen]
    rw [mask_loop_zero _ _ (by rw [H.hashBytes_length, hlen])]
    rfl
  · simp only [h, if_false, one_ne_zero] at hpad
    simp only [RandomOTReceiever.Round2, h, hpad, hlen]
    rw [mask_loop_one, hch]
    exact zipWith_bxor_cancel _ _ (by simp [RandomOTSender.Round1, H.hashBytes_length])

/-- The receiver's round 3 accepts the honest openings and returns its pad. -/
theorem receiver_Round3_honest (H : HashModel HS P) (rs : RandomOTSender S P HS)
    (m1 : RandomOTReceiveRound1Message P) (r : RandomOTReceiever P HS)
    (hc : r.choice = 0 ∨ r.choice = 1)
    (hpad : r.randChoice =
      if r.choice = 0 then (rs.Round1 H m1).1.rand0 else (rs.Round1 H m1).1.rand1) :
    (r.Round2 H (rs.Round1 H m1).2).1.Round3 H
      { decommit0 := (rs.Round1 H m1).1.decommit0, decommit1 := (rs.Round1 H m1).1.decommit1 } =
      .ok r.randChoice := by
  have hlen := sender_Round1_challenge_length H rs m1
  have hch := sender_Round1_challenge H rs m1
  have h1 : ConstantTimeCompare (r.Round2 H (rs.Round1 H m1).2).1.receivedChallenge
      ((r.Round2 H (rs.Round1 H m1).2).1.actualChallenge H
        { decommit0 := (rs.Round1 H m1).1.decommit0,
          decommit1 := (rs.Round1 H m1).1.decommit1 }) = 1 := by
    rw [ConstantTimeCompare_eq_one]
    simp only [RandomOTReceiever.Round2, RandomOTReceiever.actualChallenge, hlen]
    rw [hch, zipWith_bxor_comm]
    rfl
  have h2 : ConstantTimeCompare ((r.Round2 H (rs.Round1 H m1).2).1.h_decommitChoice H
        { decommit0 := (rs.Round1 H m1).1.decommit0,
          decommit1 := (rs.Round1 H m1).1.decommit1 })
      (r.Round2 H (rs.Round1 H m1).2).1.hh_randChoice = 1 := by
    rw [ConstantTimeCompare_eq_one]
    rcases hc with h | h
    · simp only [h, if_true] at hpad
      simp only [RandomOTReceiever.Round2, RandomOTReceiever.h_decommitChoice, hlen, h, hpad]
      rw [select_loop_zero _ _ (by rw [H.hashBytes_length, H.hashBytes_length])]
      rfl
    · simp only [h, if_false, one_ne_zero] at hpad
      simp only [RandomOTReceiever.Round2, RandomOTReceiever.h_decommitChoice, hlen, h, hpad]
      rw [select_loop_one _ _ (by rw [H.hashBytes_length, H.hashBytes_length])]
      rfl
  unfold RandomOTReceiever.Round3
  rw [if_neg (not_not.mpr h1), if_neg (not_not.mpr h2)]
  rfl

end ProtocolFacts

/-! ## The claims -/

set_option maxRecDepth 100000

section HonestRun

variable {S P HS Proof Rnd : Type} [CommRing S] [AddCommGroup P] [Module S P]

/-- The honest execution, step by step: the sender accepts the receiver's response, opens both
commitments and returns both pads, and the receiver accepts the openings and returns its pad. -/
theorem honest_run (H : HashModel HS P) (G : P) (t : HS) (b a : S) (c : Nat)
    (hc : c = 0 ∨ c = 1) :
    let B := b • G
    let r1 := (NewRandomOTReceiver t c { _B := B }).Round1 H G a
    let s1 := (NewRandomOTSender t { b := b, _B := B }).Round1 H r1.2
    let r2 := r1.1.Round2 H s1.2
    r2.2.response = s1.1.h_decommit0 ∧
    s1.1.Round2 r2.2 = .ok ({ decommit0 := s1.1.decommit0, decommit1 := s1.1.decommit1 },
                            { Rand0 := s1.1.rand0, Rand1 := s1.1.rand1 }) ∧
    r2.1.Round3 H { decommit0 := s1.1.decommit0, decommit1 := s1.1.decommit1 } =
      .ok r1.1.randChoice := by
  intro B r1 s1 r2
  have hc1 : r1.1.choice = 0 ∨ r1.1.choice = 1 := hc
  have hpad : r1.1.randChoice = if r1.1.choice = 0 then s1.1.rand0 else s1.1.rand1 :=
    honest_pad H G t b a c hc
  have hresp : r2.2.response = s1.1.h_decommit0 :=
    receiver_Round2_response H _ r1.2 r1.1 hc1 hpad
  refine ⟨hresp, ?_, receiver_Round3_honest H _ r1.2 r1.1 hc1 hpad⟩
  unfold RandomOTSender.Round2
  rw [if_neg (not_not.mpr ((ConstantTimeCompare_eq_one _ _).mpr hresp))]

/-- Claim C1. With `B = b • G`, any receiver scalar `a`, a choice `c` in {0,1} and the same
transcript `t` on both sides, the honest run Receiver.Round1, Sender.Round1, Receiver.Round2,
Sender.Round2, Receiver.Round3 fails at no step (the first three have no error result, the
last two return `ok`), and the bytes returned by Receiver.Round3 are the sender's `Rand0`
when `c = 0` and `Rand1` when `c = 1`. -/
theorem honest_run_correct (H : HashModel HS P) (G : P) (t : HS) (b a : S) (c : Nat)
    (hc : c = 0 ∨ c = 1) :
    let B := b • G
    let r1 := (NewRandomOTReceiver t c { _B := B }).Round1 H G a
    let s1 := (NewRandomOTSender t { b := b, _B := B }).Round1 H r1.2
    let r2 := r1.1.Round2 H s1.2
    ∃ m res, s1.1.Round2 r2.2 = .ok (m, res) ∧
      r2.1.Round3 H m = .ok (if c = 0 then res.Rand0 else res.Rand1) := by
  intro B r1 s1 r2
  obtain ⟨_, h2, h3⟩ := honest_run H G t b a c hc
  refine ⟨_, _, h2, ?_⟩
  rw [h3]
  exact congrArg Except.ok (honest_pad H G t b a c hc)

/-- The theorem of claim C1 at `ZMod 7` with base point 1, `b = 3`, `a = 2`, choice 1. -/
theorem honest_run_correct_witness :
    ((1 : Nat) = 0 ∨ (1 : Nat) = 1) ∧
    (let B := (3 : ZMod 7) • (1 : ZMod 7)
     let r1 := (NewRandomOTReceiver ([] : List Nat) 1 { _B := B }).Round1 demoHash (1 : ZMod 7) (2 : ZMod 7)
     let s1 := (NewRandomOTSender ([] : List Nat) { b := (3 : ZMod 7), _B := B }).Round1
       demoHash r1.2
     let r2 := r1.1.Round2 demoHash s1.2
     ∃ m res, s1.1.Round2 r2.2 = .ok (m, res) ∧
       r2.1.Round3 demoHash m = .ok (if (1 : Nat) = 0 then res.Rand0 else res.Rand1)) :=
  ⟨Or.inr rfl, honest_run_correct demoHash (1 : ZMod 7) [] (3 : ZMod 7) (2 : ZMod 7) 1 (Or.inr rfl)⟩

/-- Claim C2 fails as stated: at `ZMod 7` with base point 1, setup secret `b = 0`, `a = 3` and
choice 0 the honest run succeeds and the receiver's output is the sender's `Rand1`, the pad
that was not chosen. -/
theorem receiver_restriction_counterexample :
    let B := (0 : ZMod 7) • (1 : ZMod 7)
    let r1 := (NewRandomOTReceiver ([] : List Nat) 0 { _B := B }).Round1 demoHash (1 : ZMod 7)
      (3 : ZMod 7)
    let s1 := (NewRandomOTSender ([] : List Nat) { b := (0 : ZMod 7), _B := B }).Round1
      demoHash r1.2
    let r2 := r1.1.Round2 demoHash s1.2
    ∃ m res, s1.1.Round2 r2.2 = .ok (m, res) ∧ r2.1.Round3 demoHash m = .ok res.Rand1 := by
  intro B r1 s1 r2
  obtain ⟨_, h2, h3⟩ := honest_run demoHash (1 : ZMod 7) [] (0 : ZMod 7) (3 : ZMod 7) 0 (Or.inl rfl)
  refine ⟨_, _, h2, ?_⟩
  rw [h3]
  rfl

/-- Claim C2, amended. With `B = b • G` and a choice `c` in {0,1}, the honest run succeeds and
the value returned by Receiver.Round3 equals the sender's pad that was not chosen exactly
when two transcript digests collide: those of `a • B` and `a • B - b • B` for `c = 0`
(against `Rand1`), those of `a • B` and `a • B + b • B` for `c = 1` (against `Rand0`). So the
output differs from the other pad whenever these digests differ. -/
theorem receiver_restriction (H : HashModel HS P) (G : P) (t : HS) (b a : S) (c : Nat)
    (hc : c = 0 ∨ c = 1) :
    let B := b • G
    let r1 := (NewRandomOTReceiver t c { _B := B }).Round1 H G a
    let s1 := (NewRandomOTSender t { b := b, _B := B }).Round1 H r1.2
    let r2 := r1.1.Round2 H s1.2
    ∃ m res out, s1.1.Round2 r2.2 = .ok (m, res) ∧ r2.1.Round3 H m = .ok out ∧
      (c = 0 → (out = res.Rand1 ↔
        H.read (H.writePoint t (a • B)) SecBytes =
          H.read (H.writePoint t (a • B - b • B)) SecBytes)) ∧
      (c = 1 → (out = res.Rand0 ↔
        H.read (H.writePoint t (a • B)) SecBytes =
          H.read (H.writePoint t (a • B + b • B)) SecBytes)) := by
  intro B r1 s1 r2
  obtain ⟨_, h2, h3⟩ := honest_run H G t b a c hc
  refine ⟨_, _, _, h2, h3, ?_, ?_⟩
  · rintro rfl
    simp [r1, s1, B, RandomOTReceiever.Round1, RandomOTSender.Round1, NewRandomOTReceiver,
      NewRandomOTSender, CondAssign, smul_sub, smul_comm b a G]
  · rintro rfl
    simp [r1, s1, B, RandomOTReceiever.Round1, RandomOTSender.Round1, NewRandomOTReceiver,
      NewRandomOTSender, CondAssign, smul_add, smul_comm b a G]

/-- The theorem of claim C2 at `ZMod 7` with base point 1, `b = 3`, `a = 2`, choice 0. -/
theorem receiver_restriction_witness :
    ((0 : Nat) = 0 ∨ (0 : Nat) = 1) ∧
    (let B := (3 : ZMod 7) • (1 : ZMod 7)
     let r1 := (NewRandomOTReceiver ([] : List Nat) 0 { _B := B }).Round1 demoHash (1 : ZMod 7) (2 : ZMod 7)
     let s1 := (NewRandomOTSender ([] : List Nat) { b := (3 : ZMod 7), _B := B }).Round1
       demoHash r1.2
     let r2 := r1.1.Round2 demoHash s1.2
     ∃ m res out, s1.1.Round2 r2.2 = .ok (m, res) ∧ r2.1.Round3 demoHash m = .ok out ∧
      ((0 : Nat) = 0 → (out = res.Rand1 ↔
        demoHash.read (demoHash.writePoint [] ((2 : ZMod 7) • B)) SecBytes =
          demoHash.read (demoHash.writePoint [] ((2 : ZMod 7) • B - (3 : ZMod 7) • B)) SecBytes)) ∧
      ((0 : Nat) = 1 → (out = res.Rand0 ↔
        demoHash.read (demoHash.writePoint [] ((2 : ZMod 7) • B)) SecBytes =
          demoHash.read (demoHash.writePoint [] ((2 : ZMod 7) • B + (3 : ZMod 7) • B))
            SecBytes))) :=
  ⟨Or.inl rfl, receiver_restriction demoHash (1 : ZMod 7) [] (3 : ZMod 7) (2 : ZMod 7) 0 (Or.inl rfl)⟩

end HonestRun

section SenderView

variable {S P HS Proof Rnd : Type} [CommRing S] [AddCommGroup P] [Module S P]

/-- Writing a different byte at a valid index changes a byte slice. -/
theorem set_ne_self (l : List Byte) (i : Nat) (v : Byte) (hi : i < l.length)
    (hv : v ≠ l.getD i 0) : l.set i v ≠ l := by
  intro h
  have h1 : (l.set i v).getD i 0 = v := by
    simp [List.getD_eq_getElem, hi]
  rw [h] at h1
  exact hv h1.symm

/-- In an honest execution the sender's view is the point `A`, the challenge computed from
`A`, and its own `h_decommit0`. -/
theorem senderView_eq (H : HashModel HS P) (G : P) (t : HS) (b a : S) (c : Nat)
    (hc : c = 0 ∨ c = 1) :
    senderView H G t b c a =
      (((NewRandomOTReceiver t c { _B := b • G }).Round1 H G a).2._A,
       ((NewRandomOTSender t { b := b, _B := b • G }).Round1 H
          ((NewRandomOTReceiver t c { _B := b • G }).Round1 H G a).2).2.challenge,
       ((NewRandomOTSender t { b := b, _B := b • G }).Round1 H
          ((NewRandomOTReceiver t c { _B := b • G }).Round1 H G a).2).1.h_decommit0) := by
  obtain ⟨h1, _, _⟩ := honest_run H G t b a c hc
  unfold senderView
  simp only
  rw [h1]

/-- The receiver's first message with choice 1 and scalar `a` is its first message with
choice 0 and scalar `a + b`. -/
theorem receiver_Round1_shift (H : HashModel HS P) (G : P) (t : HS) (b a : S) :
    ((NewRandomOTReceiver t 1 { _B := b • G }).Round1 H G a).2 =
      ((NewRandomOTReceiver t 0 { _B := b • G }).Round1 H G (a + b)).2 := by
  simp [RandomOTReceiever.Round1, NewRandomOTReceiver, CondAssign, add_smul]

/-- Claim C3. With `B = b • G` and the same transcript `t` on both sides, the messages the
sender receives and sends in an honest run with choice 1 and scalar `a` (the point `A`, the
challenge, the response) are those of the honest run with choice 0 and scalar `a + b`. Hence,
over a finite scalar ring, each possible view arises from exactly as many scalars `a` under
choice 1 as under choice 0: for uniform `a` the view has the same distribution. -/
theorem sender_view_independent [Fintype S] [DecidableEq P]
    (H : HashModel HS P) (G : P) (t : HS) (b : S) :
    (∀ a : S, senderView H G t b 1 a = senderView H G t b 0 (a + b)) ∧
    (∀ v : P × List Byte × List Byte,
      (Finset.univ.filter (fun a : S => senderView H G t b 1 a = v)).card =
        (Finset.univ.filter (fun a : S => senderView H G t b 0 a = v)).card) := by
  have hshift : ∀ a : S, senderView H G t b 1 a = senderView H G t b 0 (a + b) := by
    intro a
    rw [senderView_eq H G t b a 1 (Or.inr rfl), senderView_eq H G t b (a + b) 0 (Or.inl rfl),
      receiver_Round1_shift H G t b a]
  refine ⟨hshift, ?_⟩
  intro v
  apply Finset.card_equiv (Equiv.addRight b)
  intro a
  simp only [Finset.mem_filter, Finset.mem_univ, true_and, Equiv.coe_addRight, hshift a]

/-- Claim C4. In an honest run up to Sender.Round1 with challenge `ch`, a receiver that is
handed any `ch'` of the same length with `ch' ≠ ch` (in particular `ch` with one byte
changed) in Round2 and then the sender's honest openings in Round3 fails in Round3: the
challenge comparison is not 1 and the error is returned, whatever the choice is. -/
theorem tampered_challenge_rejected (H : HashModel HS P) (G : P) (t : HS) (b a : S) (c : Nat)
    (ch' : List Byte) :
    let B := b • G
    let r1 := (NewRandomOTReceiver t c { _B := B }).Round1 H G a
    let s1 := (NewRandomOTSender t { b := b, _B := B }).Round1 H r1.2
    ch'.length = s1.2.challenge.length → ch' ≠ s1.2.challenge →
    let r2 := (r1.1.Round2 H { challenge := ch' }).1
    let m : RandomOTSendRound2Message :=
      { decommit0 := s1.1.decommit0, decommit1 := s1.1.decommit1 }
    ConstantTimeCompare r2.receivedChallenge (r2.actualChallenge H m) ≠ 1 ∧
    r2.Round3 H m = .error "RandomOTReceive Round 3: incorrect decommitment" := by
  intro B r1 s1 hlen hne r2 m
  have hl : ch'.length = SecBytes := by
    rw [hlen]; exact sender_Round1_challenge_length H _ r1.2
  have hact : r2.actualChallenge H m = s1.2.challenge := by
    rw [sender_Round1_challenge H _ r1.2, zipWith_bxor_comm]
    simp only [r2, m, RandomOTReceiever.Round2, RandomOTReceiever.actualChallenge, hl]
    rfl
  have hcmp : ConstantTimeCompare r2.receivedChallenge (r2.actualChallenge H m) ≠ 1 := by
    rw [ConstantTimeCompare_ne_one, hact]
    exact hne
  refine ⟨hcmp, ?_⟩
  unfold RandomOTReceiever.Round3
  rw [if_pos hcmp]

end SenderView

/-- The theorem of claim C4 at `ZMod 7` with base point 1, `b = 3`, `a = 2`, choice 1, the
first byte of the honest challenge being replaced by zero. -/
theorem tampered_challenge_rejected_witness :
    let B := (3 : ZMod 7) • (1 : ZMod 7)
    let r1 := (NewRandomOTReceiver ([] : List Nat) 1 { _B := B }).Round1 demoHash (1 : ZMod 7)
      (2 : ZMod 7)
    let s1 := (NewRandomOTSender ([] : List Nat) { b := (3 : ZMod 7), _B := B }).Round1
      demoHash r1.2
    let ch' := s1.2.challenge.set 0 0
    ch'.length = s1.2.challenge.length ∧ ch' ≠ s1.2.challenge ∧
    (let r2 := (r1.1.Round2 demoHash { challenge := ch' }).1
     let m : RandomOTSendRound2Message :=
       { decommit0 := s1.1.decommit0, decommit1 := s1.1.decommit1 }
     ConstantTimeCompare r2.receivedChallenge (r2.actualChallenge demoHash m) ≠ 1 ∧
     r2.Round3 demoHash m = .error "RandomOTReceive Round 3: incorrect decommitment") := by
  intro B r1 s1 ch'
  have hlen : ch'.length = s1.2.challenge.length := List.length_set _ _ _
  have hne : ch' ≠ s1.2.challenge := by decide
  exact ⟨hlen, hne,
    tampered_challenge_rejected demoHash (1 : ZMod 7) [] (3 : ZMod 7) (2 : ZMod 7) 1 ch' hlen hne⟩

section Checks

variable {S P HS Proof Rnd : Type}

/-- With an empty stored challenge and an empty stored double hash, both comparisons of
Round3 are made on empty slices and Round3 returns the pad. -/
theorem Round3_of_empty (H : HashModel HS P) (r : RandomOTReceiever P HS)
    (msg : RandomOTSendRound2Message) (h1 : r.receivedChallenge = [])
    (h2 : r.hh_randChoice = []) : r.Round3 H msg = .ok r.randChoice := by
  have ha : r.actualChallenge H msg = [] := by
    simp [RandomOTReceiever.actualChallenge, h1, HashModel.hashBytes, HashModel.read]
  have hd : r.h_decommitChoice H msg = [] := by
    simp [RandomOTReceiever.h_decommitChoice, h1, HashModel.hashBytes, HashModel.read]
  unfold RandomOTReceiever.Round3
  rw [ha, hd, h1, h2, if_neg (not_not.mpr (ConstantTimeCompare_self [])),
    if_neg (not_not.mpr (ConstantTimeCompare_self []))]

/-- Claim C5 fails as stated: at `ZMod 7`, a receiver that was handed the empty challenge in
Round2 stores a challenge different from the XOR of the two 32-byte digests of the openings,
and yet Round3 succeeds and returns the pad. -/
theorem challenge_check_counterexample :
    let r1 := ((NewRandomOTReceiver ([] : List Nat) 0
      { _B := (3 : ZMod 7) • (1 : ZMod 7) }).Round1 demoHash (1 : ZMod 7) (2 : ZMod 7)).1
    let r2 := (r1.Round2 demoHash { challenge := [] }).1
    let m : RandomOTSendRound2Message := { decommit0 := [], decommit1 := [] }
    r2.receivedChallenge ≠
      List.zipWith bxor (demoHash.hashBytes m.decommit0 SecBytes)
        (demoHash.hashBytes m.decommit1 SecBytes) ∧
    r2.Round3 demoHash m = .ok r2.randChoice := by
  intro r1 r2 m
  constructor
  · intro h
    have hl := congrArg List.length h
    simp [r2, RandomOTReceiever.Round2, HashModel.hashBytes_length, SecBytes] at hl
  · exact Round3_of_empty demoHash r2 m rfl rfl

/-- Claim C5, amended. For every receiver state and every pair of openings, Round3 fails
with its error at the challenge comparison whenever the stored challenge differs from the
XOR of the digests of `decommit0` and `decommit1`, each digest being read to the length of
the stored challenge (the 32-byte digest when the stored challenge has 32 bytes). -/
theorem challenge_check (H : HashModel HS P) (r : RandomOTReceiever P HS)
    (msg : RandomOTSendRound2Message)
    (hne : r.receivedChallenge ≠
      List.zipWith bxor (H.hashBytes msg.decommit0 r.receivedChallenge.length)
        (H.hashBytes msg.decommit1 r.receivedChallenge.length)) :
    ConstantTimeCompare r.receivedChallenge (r.actualChallenge H msg) ≠ 1 ∧
    r.Round3 H msg = .error "RandomOTReceive Round 3: incorrect decommitment" := by
  have hcmp : ConstantTimeCompare r.receivedChallenge (r.actualChallenge H msg) ≠ 1 := by
    rw [ConstantTimeCompare_ne_one]
    exact hne
  refine ⟨hcmp, ?_⟩
  unfold RandomOTReceiever.Round3
  rw [if_pos hcmp]

/-- The theorem of claim C5 at `ZMod 7` with base point 1, `b = 3`, `a = 2`, choice 1: the
receiver holds the honest challenge and is sent two empty openings. -/
theorem challenge_check_witness :
    let B := (3 : ZMod 7) • (1 : ZMod 7)
    let r1 := (NewRandomOTReceiver ([] : List Nat) 1 { _B := B }).Round1 demoHash (1 : ZMod 7)
      (2 : ZMod 7)
    let s1 := (NewRandomOTSender ([] : List Nat) { b := (3 : ZMod 7), _B := B }).Round1
      demoHash r1.2
    let r2 := (r1.1.Round2 demoHash s1.2).1
    let m : RandomOTSendRound2Message := { decommit0 := [], decommit1 := [] }
    r2.receivedChallenge ≠
      List.zipWith bxor (demoHash.hashBytes m.decommit0 r2.receivedChallenge.length)
        (demoHash.hashBytes m.decommit1 r2.receivedChallenge.length) ∧
    ConstantTimeCompare r2.receivedChallenge (r2.actualChallenge demoHash m) ≠ 1 ∧
    r2.Round3 demoHash m = .error "RandomOTReceive Round 3: incorrect decommitment" := by
  intro B r1 s1 r2 m
  have hne : r2.receivedChallenge ≠
      List.zipWith bxor (demoHash.hashBytes m.decommit0 r2.receivedChallenge.length)
        (demoHash.hashBytes m.decommit1 r2.receivedChallenge.length) := by decide
  exact ⟨hne, challenge_check demoHash r2 m hne⟩

section DecommitmentCheck

variable [CommRing S] [AddCommGroup P] [Module S P]

/-- Claim C6 fails as stated: at `ZMod 7`, with choice 0, a receiver that was handed the
empty challenge in Round2 and is sent the openings `[9]` and `[]` passes the challenge
comparison; the `SecBytes`-byte digest of `decommit0` differs from the `SecBytes`-byte double
hash of the pad, and from the double hash that Round2 stored, and yet Round3 succeeds. -/
theorem decommitment_check_counterexample :
    let r1 := ((NewRandomOTReceiver ([] : List Nat) 0
      { _B := (3 : ZMod 7) • (1 : ZMod 7) }).Round1 demoHash (1 : ZMod 7) (2 : ZMod 7)).1
    let r2 := (r1.Round2 demoHash { challenge := [] }).1
    let msg2 : RandomOTSendRound2Message := { decommit0 := [9], decommit1 := [] }
    ConstantTimeCompare r2.receivedChallenge (r2.actualChallenge demoHash msg2) = 1 ∧
    demoHash.hashBytes msg2.decommit0 SecBytes ≠
      demoHash.hashBytes (demoHash.hashBytes r1.randChoice SecBytes) SecBytes ∧
    demoHash.hashBytes msg2.decommit0 SecBytes ≠ r2.hh_randChoice ∧
    r2.Round3 demoHash msg2 = .ok r1.randChoice := by
  intro r1 r2 msg2
  refine ⟨by decide, by decide, ?_, Round3_of_empty demoHash r2 msg2 rfl rfl⟩
  intro h
  have hl := congrArg List.length h
  simp [r2, RandomOTReceiever.Round2, HashModel.hashBytes_length, SecBytes] at hl

/-- Claim C6, amended. For a receiver state reached by Round1 and Round2 (from any state
with a choice in {0,1}, any scalar, any challenge message) whose challenge comparison passes
in Round3: the stored double hash is the digest of the digest of the pad of Round1, Round3
fails exactly when the digest selected by the choice (of `decommit0` for choice 0, of
`decommit1` for choice 1) differs from the stored double hash, and otherwise it returns the
pad of Round1, the digest of the transcript after absorbing `a • B`. Here every digest of a
byte slice is read to the length `n` of the delivered challenge; these are the
`SecBytes`-byte digests when the delivered challenge has `SecBytes` bytes. -/
theorem decommitment_check (H : HashModel HS P) (G : P) (r0 : RandomOTReceiever P HS) (a : S)
    (msg1 : RandomOTSendRound1Message) (msg2 : RandomOTSendRound2Message)
    (hc : r0.choice = 0 ∨ r0.choice = 1) :
    let r1 := (r0.Round1 H G a).1
    let r2 := (r1.Round2 H msg1).1
    let n := msg1.challenge.length
    let hsel := if r0.choice = 0 then H.hashBytes msg2.decommit0 n
      else H.hashBytes msg2.decommit1 n
    ConstantTimeCompare r2.receivedChallenge (r2.actualChallenge H msg2) = 1 →
      r1.randChoice = H.read (H.writePoint r0.hash (a • r0._B)) SecBytes ∧
      r2.hh_randChoice = H.hashBytes (H.hashBytes r1.randChoice n) n ∧
      ((∃ e, r2.Round3 H msg2 = .error e) ↔ hsel ≠ r2.hh_randChoice) ∧
      (hsel = r2.hh_randChoice → r2.Round3 H msg2 = .ok r1.randChoice) ∧
      (n = SecBytes →
        r2.hh_randChoice = H.hashBytes (H.hashBytes r1.randChoice SecBytes) SecBytes ∧
        hsel = (if r0.choice = 0 then H.hashBytes msg2.decommit0 SecBytes
          else H.hashBytes msg2.decommit1 SecBytes)) := by
  intro r1 r2 n hsel hpass
  have hchoice : r2.h_decommitChoice H msg2 = hsel := by
    rcases hc with h | h
    · simp only [r2, r1, hsel, n, RandomOTReceiever.h_decommitChoice, RandomOTReceiever.Round2,
        RandomOTReceiever.Round1, h, if_true]
      exact select_loop_zero _ _ (by rw [H.hashBytes_length, H.hashBytes_length])
    · simp only [r2, r1, hsel, n, RandomOTReceiever.h_decommitChoice, RandomOTReceiever.Round2,
        RandomOTReceiever.Round1, h, if_false, one_ne_zero]
      exact select_loop_one _ _ (by rw [H.hashBytes_length, H.hashBytes_length])
  have hround : r2.Round3 H msg2 =
      if ConstantTimeCompare hsel r2.hh_randChoice ≠ 1 then
        .error "RandomOTReceive Round 3: incorrect decommitment"
      else .ok r1.randChoice := by
    unfold RandomOTReceiever.Round3
    rw [if_neg (not_not.mpr hpass), hchoice]
    rfl
  refine ⟨rfl, rfl, ?_, ?_, ?_⟩
  · rw [hround]
    by_cases heq : hsel = r2.hh_randChoice
    · rw [if_neg (not_not.mpr ((ConstantTimeCompare_eq_one _ _).mpr heq))]
      simp [heq]
    · rw [if_pos ((ConstantTimeCompare_ne_one _ _).mpr heq)]
      simp [heq]
  · intro heq
    rw [hround, if_neg (not_not.mpr ((ConstantTimeCompare_eq_one _ _).mpr heq))]
  · intro hn
    have h1 : r2.hh_randChoice = H.hashBytes (H.hashBytes r1.randChoice n) n := rfl
    have h2 : hsel = (if r0.choice = 0 then H.hashBytes msg2.decommit0 n
        else H.hashBytes msg2.decommit1 n) := rfl
    rw [hn] at h1 h2
    exact ⟨h1, h2⟩

/-- The theorem of claim C6 at `ZMod 7` with base point 1, `b = 3`, `a = 2`, choice 1, on the
honest challenge and the honest openings. -/
theorem decommitment_check_witness :
    let B := (3 : ZMod 7) • (1 : ZMod 7)
    let r0 : RandomOTReceiever (ZMod 7) (List Nat) := NewRandomOTReceiver [] 1 { _B := B }
    let s1 := (NewRandomOTSender ([] : List Nat) { b := (3 : ZMod 7), _B := B }).Round1
      demoHash (r0.Round1 demoHash (1 : ZMod 7) (2 : ZMod 7)).2
    let msg1 := s1.2
    let msg2 : RandomOTSendRound2Message :=
      { decommit0 := s1.1.decommit0, decommit1 := s1.1.decommit1 }
    let r1 := (r0.Round1 demoHash (1 : ZMod 7) (2 : ZMod 7)).1
    let r2 := (r1.Round2 demoHash msg1).1
    let n := msg1.challenge.length
    let hsel := if r0.choice = 0 then demoHash.hashBytes msg2.decommit0 n
      else demoHash.hashBytes msg2.decommit1 n
    (r0.choice = 0 ∨ r0.choice = 1) ∧
    ConstantTimeCompare r2.receivedChallenge (r2.actualChallenge demoHash msg2) = 1 ∧
    r1.randChoice = demoHash.read (demoHash.writePoint r0.hash ((2 : ZMod 7) • r0._B)) SecBytes ∧
    r2.hh_randChoice = demoHash.hashBytes (demoHash.hashBytes r1.randChoice n) n ∧
    ((∃ e, r2.Round3 demoHash msg2 = .error e) ↔ hsel ≠ r2.hh_randChoice) ∧
    (hsel = r2.hh_randChoice → r2.Round3 demoHash msg2 = .ok r1.randChoice) ∧
    (n = SecBytes →
      r2.hh_randChoice = demoHash.hashBytes (demoHash.hashBytes r1.randChoice SecBytes)
        SecBytes ∧
      hsel = (if r0.choice = 0 then demoHash.hashBytes msg2.decommit0 SecBytes
        else demoHash.hashBytes msg2.decommit1 SecBytes)) := by
  intro B r0 s1 msg1 msg2 r1 r2 n hsel
  have hc : r0.choice = 0 ∨ r0.choice = 1 := Or.inr rfl
  have hpass : ConstantTimeCompare r2.receivedChallenge (r2.actualChallenge demoHash msg2) = 1 := by
    decide
  exact ⟨hc, hpass,
    decommitment_check demoHash (1 : ZMod 7) r0 (2 : ZMod 7) msg1 msg2 hc hpass⟩

end DecommitmentCheck

/-- Claim C7. For every sender state and every response message, Sender.Round2 returns an
error, the invalid-response one and nothing else, exactly when the response is not equal to
the stored `h_decommit0` as a byte slice (so also when the lengths differ); otherwise it
returns the message with the stored `decommit0`, `decommit1` and the result with the stored
`rand0`, `rand1`. -/
theorem sender_Round2_spec (r : RandomOTSender S P HS) (msg : RandomOTReceiveRound2Message) :
    ((∃ e, r.Round2 msg = .error e) ↔ msg.response ≠ r.h_decommit0) ∧
    (msg.response ≠ r.h_decommit0 →
      r.Round2 msg = .error "RandomOTSender Round2: invalid response") ∧
    (msg.response = r.h_decommit0 →
      r.Round2 msg = .ok ({ decommit0 := r.decommit0, decommit1 := r.decommit1 },
                          { Rand0 := r.rand0, Rand1 := r.rand1 })) ∧
    (msg.response.length ≠ r.h_decommit0.length →
      r.Round2 msg = .error "RandomOTSender Round2: invalid response") := by
  have hbad : msg.response ≠ r.h_decommit0 →
      r.Round2 msg = .error "RandomOTSender Round2: invalid response" := by
    intro h
    unfold RandomOTSender.Round2
    rw [if_pos ((ConstantTimeCompare_ne_one _ _).mpr h)]
  have hgood : msg.response = r.h_decommit0 →
      r.Round2 msg = .ok ({ decommit0 := r.decommit0, decommit1 := r.decommit1 },
                          { Rand0 := r.rand0, Rand1 := r.rand1 }) := by
    intro h
    unfold RandomOTSender.Round2
    rw [if_neg (not_not.mpr ((ConstantTimeCompare_eq_one _ _).mpr h))]
  refine ⟨?_, hbad, hgood, ?_⟩
  · constructor
    · rintro ⟨e, he⟩ heq
      rw [hgood heq] at he
      exact absurd he (by simp)
    · intro h
      exact ⟨_, hbad h⟩
  · intro hlen
    exact hbad (fun h => hlen (congrArg List.length h))

section ResponseTamper

variable [CommRing S] [AddCommGroup P] [Module S P]

/-- Claim C8. In an honest run up to Receiver.Round2 with a choice in {0,1}, Sender.Round2
returns the invalid-response error on every response that differs from the receiver's honest
response, in particular on the honest response with one byte changed. -/
theorem tampered_response_rejected (H : HashModel HS P) (G : P) (t : HS) (b a : S) (c : Nat)
    (hc : c = 0 ∨ c = 1) :
    let B := b • G
    let r1 := (NewRandomOTReceiver t c { _B := B }).Round1 H G a
    let s1 := (NewRandomOTSender t { b := b, _B := B }).Round1 H r1.2
    let r2 := r1.1.Round2 H s1.2
    (∀ resp' : List Byte, resp' ≠ r2.2.response →
      s1.1.Round2 { response := resp' } =
        .error "RandomOTSender Round2: invalid response") ∧
    (∀ (i : Nat) (v : Byte), i < r2.2.response.length → v ≠ r2.2.response.getD i 0 →
      s1.1.Round2 { response := r2.2.response.set i v } =
        .error "RandomOTSender Round2: invalid response") := by
  intro B r1 s1 r2
  obtain ⟨hresp, _, _⟩ := honest_run H G t b a c hc
  have hgen : ∀ resp' : List Byte, resp' ≠ r2.2.response →
      s1.1.Round2 { response := resp' } =
        .error "RandomOTSender Round2: invalid response" := by
    intro resp' hne
    unfold RandomOTSender.Round2
    rw [if_pos]
    rw [ConstantTimeCompare_ne_one]
    intro h
    exact hne (h.trans hresp.symm)
  exact ⟨hgen, fun i v hi hv => hgen _ (set_ne_self _ i v hi hv)⟩

/-- The theorem of claim C8 at `ZMod 7` with base point 1, `b = 3`, `a = 2`, choice 0. -/
theorem tampered_response_rejected_witness :
    ((0 : Nat) = 0 ∨ (0 : Nat) = 1) ∧
    (let B := (3 : ZMod 7) • (1 : ZMod 7)
     let r1 := (NewRandomOTReceiver ([] : List Nat) 0 { _B := B }).Round1 demoHash (1 : ZMod 7)
       (2 : ZMod 7)
     let s1 := (NewRandomOTSender ([] : List Nat) { b := (3 : ZMod 7), _B := B }).Round1
       demoHash r1.2
     let r2 := r1.1.Round2 demoHash s1.2
     (∀ resp' : List Byte, resp' ≠ r2.2.response →
       s1.1.Round2 { response := resp' } =
         .error "RandomOTSender Round2: invalid response") ∧
     (∀ (i : Nat) (v : Byte), i < r2.2.response.length → v ≠ r2.2.response.getD i 0 →
       s1.1.Round2 { response := r2.2.response.set i v } =
         .error "RandomOTSender Round2: invalid response")) :=
  ⟨Or.inl rfl,
    tampered_response_rejected demoHash (1 : ZMod 7) [] (3 : ZMod 7) (2 : ZMod 7) 0 (Or.inl rfl)⟩

end ResponseTamper

/-- Claim C9. For every transcript and every setup message, RandomOTSetupReceive returns an
error (and no result) exactly when the Schnorr proof does not verify against that
transcript and the point `B` of the message; when the proof verifies, the result stores
exactly that `B`. -/
theorem setup_receive_spec (Sch : SchnorrModel S P HS Proof Rnd) (hash : HS)
    (msg : RandomOTSetupSendMessage P Proof) :
    ((∃ e, RandomOTSetupReceive Sch hash msg = .error e) ↔
      Sch.Verify msg._BProof hash msg._B = false) ∧
    (Sch.Verify msg._BProof hash msg._B = false →
      RandomOTSetupReceive Sch hash msg =
        .error "RandomOTSetupReceive: Schnorr proof failed to verify") ∧
    (Sch.Verify msg._BProof hash msg._B = true →
      RandomOTSetupReceive Sch hash msg = .ok { _B := msg._B }) := by
  cases hv : Sch.Verify msg._BProof hash msg._B <;>
    simp [RandomOTSetupReceive, hv]

section SetupSend

variable [CommRing S] [AddCommGroup P] [Module S P]

/-- Claim C10. For every sampled scalar `b` (and proof randomness), RandomOTSetupSend, which
has no error result, returns a message and a result with `result.b = b`,
`result.B = result.b • G`, `message.B = result.B`, and the message's proof is the Schnorr
proof built for `(B, b)` on the supplied transcript. -/
theorem setup_send_spec (Sch : SchnorrModel S P HS Proof Rnd) (G : P) (hash : HS) (b : S)
    (ρ : Rnd) :
    (RandomOTSetupSend Sch G hash b ρ).2.b = b ∧
    (RandomOTSetupSend Sch G hash b ρ).2._B = (RandomOTSetupSend Sch G hash b ρ).2.b • G ∧
    (RandomOTSetupSend Sch G hash b ρ).1._B = (RandomOTSetupSend Sch G hash b ρ).2._B ∧
    (RandomOTSetupSend Sch G hash b ρ).1._BProof =
      Sch.NewProof hash (RandomOTSetupSend Sch G hash b ρ).2._B
        (RandomOTSetupSend Sch G hash b ρ).2.b ρ :=
  ⟨rfl, rfl, rfl, rfl⟩

end SetupSend

end Checks

section RoundSpecs

variable {S P HS : Type} [CommRing S] [AddCommGroup P] [Module S P]

/-- Claim C11. For every receiver state with choice in {0,1} and setup point `B`, and every
sampled scalar `a`, Receiver.Round1 emits `A = a • G + choice • B` (so `a • G` for choice 0
and `a • G + B` for choice 1), absorbs `a • B` into the receiver's transcript, and stores as
`randChoice` the first `SecBytes = 32` bytes of the digest of that transcript; choice and `B`
stay as they were. -/
theorem receiver_Round1_spec (H : HashModel HS P) (G : P) (r : RandomOTReceiever P HS) (a : S)
    (hc : r.choice = 0 ∨ r.choice = 1) :
    (r.Round1 H G a).2._A = a • G + (r.choice : S) • r._B ∧
    (r.choice = 0 → (r.Round1 H G a).2._A = a • G) ∧
    (r.choice = 1 → (r.Round1 H G a).2._A = a • G + r._B) ∧
    (r.Round1 H G a).1.hash = H.writePoint r.hash (a • r._B) ∧
    (r.Round1 H G a).1.randChoice = H.read (H.writePoint r.hash (a • r._B)) SecBytes ∧
    (r.Round1 H G a).1.randChoice.length = SecBytes ∧
    (∀ i, i < SecBytes →
      (r.Round1 H G a).1.randChoice.getD i 0 = H.out (H.writePoint r.hash (a • r._B)) i) ∧
    SecBytes = 32 := by
  refine ⟨?_, (receiver_Round1_A H G r a).1, (receiver_Round1_A H G r a).2, rfl, rfl,
    H.read_length _ _, ?_, rfl⟩
  · rcases hc with h | h
    · rw [(receiver_Round1_A H G r a).1 h, h]
      simp
    · rw [(receiver_Round1_A H G r a).2 h, h]
      simp
  · intro i hi
    simp [RandomOTReceiever.Round1, HashModel.read, List.getD_eq_getElem, hi]

/-- The theorem of claim C11 at `ZMod 7` with base point 1, `B = 3`, `a = 2`, choice 1. -/
theorem receiver_Round1_spec_witness :
    let r : RandomOTReceiever (ZMod 7) (List Nat) :=
      NewRandomOTReceiver [] 1 { _B := (3 : ZMod 7) • (1 : ZMod 7) }
    (r.choice = 0 ∨ r.choice = 1) ∧
    (r.Round1 demoHash (1 : ZMod 7) (2 : ZMod 7)).2._A =
      (2 : ZMod 7) • (1 : ZMod 7) + (r.choice : ZMod 7) • r._B ∧
    (r.choice = 0 → (r.Round1 demoHash (1 : ZMod 7) (2 : ZMod 7)).2._A =
      (2 : ZMod 7) • (1 : ZMod 7)) ∧
    (r.choice = 1 → (r.Round1 demoHash (1 : ZMod 7) (2 : ZMod 7)).2._A =
      (2 : ZMod 7) • (1 : ZMod 7) + r._B) ∧
    (r.Round1 demoHash (1 : ZMod 7) (2 : ZMod 7)).1.hash =
      demoHash.writePoint r.hash ((2 : ZMod 7) • r._B) ∧
    (r.Round1 demoHash (1 : ZMod 7) (2 : ZMod 7)).1.randChoice =
      demoHash.read (demoHash.writePoint r.hash ((2 : ZMod 7) • r._B)) SecBytes ∧
    (r.Round1 demoHash (1 : ZMod 7) (2 : ZMod 7)).1.randChoice.length = SecBytes ∧
    (∀ i, i < SecBytes →
      (r.Round1 demoHash (1 : ZMod 7) (2 : ZMod 7)).1.randChoice.getD i 0 =
        demoHash.out (demoHash.writePoint r.hash ((2 : ZMod 7) • r._B)) i) ∧
    SecBytes = 32 := by
  intro r
  have hc : r.choice = 0 ∨ r.choice = 1 := Or.inr rfl
  exact ⟨hc, receiver_Round1_spec demoHash (1 : ZMod 7) r (2 : ZMod 7) hc⟩

/-- Claim C12. For every sender state (transcript `t`, `b`, `B`) and every first message
`A`, Sender.Round1 stores `rand0`, the digest of `t` after absorbing `b • A`, and `rand1`,
the digest of `t` after absorbing `b • (A - B)`, both from clones of the same `t`, which is
left unchanged; then `decommit0 = Hash(rand0)`, `decommit1 = Hash(rand1)`,
`h_decommit0 = Hash(decommit0)`, and it emits the byte-wise XOR of `Hash(decommit1)` and
`h_decommit0`, that is of `Hash(Hash(rand0))` and `Hash(Hash(rand1))`. -/
theorem sender_Round1_spec (H : HashModel HS P) (r : RandomOTSender S P HS)
    (msg : RandomOTReceiveRound1Message P) :
    let rand0 := H.read (H.writePoint r.hash (r.b • msg._A)) SecBytes
    let rand1 := H.read (H.writePoint r.hash (r.b • (msg._A - r._B))) SecBytes
    (r.Round1 H msg).1.rand0 = rand0 ∧
    (r.Round1 H msg).1.rand1 = rand1 ∧
    (r.Round1 H msg).1.hash = r.hash ∧
    (r.Round1 H msg).1.b = r.b ∧
    (r.Round1 H msg).1._B = r._B ∧
    (r.Round1 H msg).1.decommit0 = H.hashBytes rand0 SecBytes ∧
    (r.Round1 H msg).1.decommit1 = H.hashBytes rand1 SecBytes ∧
    (r.Round1 H msg).1.h_decommit0 = H.hashBytes (H.hashBytes rand0 SecBytes) SecBytes ∧
    (r.Round1 H msg).2.challenge =
      List.zipWith bxor (H.hashBytes (r.Round1 H msg).1.decommit1 SecBytes)
        (r.Round1 H msg).1.h_decommit0 ∧
    (r.Round1 H msg).2.challenge =
      List.zipWith bxor (H.hashBytes (H.hashBytes rand0 SecBytes) SecBytes)
        (H.hashBytes (H.hashBytes rand1 SecBytes) SecBytes) := by
  intro rand0 rand1
  refine ⟨rfl, rfl, rfl, rfl, rfl, rfl, rfl, rfl, sender_Round1_challenge H r msg, ?_⟩
  rw [sender_Round1_challenge H r msg, zipWith_bxor_comm]
  rfl

end RoundSpecs

section RoundSpecs2

variable {S P HS : Type}

/-- Claim C13 fails as stated: at `ZMod 7`, with choice 0, a receiver that is handed the
one-byte challenge `[7]` after Round1 stores a double hash that is neither the
`SecBytes`-byte double hash of its pad nor the first byte of it, and the response it emits is
not that double hash either. -/
theorem receiver_Round2_counterexample :
    let r1 := ((NewRandomOTReceiver ([] : List Nat) 0
      { _B := (3 : ZMod 7) • (1 : ZMod 7) }).Round1 demoHash (1 : ZMod 7) (2 : ZMod 7)).1
    let msg : RandomOTSendRound1Message := { challenge := [7] }
    let doubleHash := demoHash.hashBytes (demoHash.hashBytes r1.randChoice SecBytes) SecBytes
    (r1.Round2 demoHash msg).1.hh_randChoice ≠ doubleHash ∧
    (r1.Round2 demoHash msg).1.hh_randChoice ≠ doubleHash.take 1 ∧
    (r1.Round2 demoHash msg).2.response ≠ doubleHash := by
  intro r1 msg doubleHash
  exact ⟨by decide, by decide, by decide⟩

/-- Claim C13, amended. For every receiver state with choice in {0,1} and every received
challenge, of length `n`, Receiver.Round2 stores the challenge, stores as double hash the
`n`-byte digest of the `n`-byte digest of `randChoice` (the `SecBytes`-byte double hash when
the challenge has `SecBytes` bytes), and emits the stored double hash for choice 0 and its
byte-wise XOR with the challenge for choice 1: the loop with the mask `-byte(choice)`
computes what a branch on the bit would. The other fields are untouched. -/
theorem receiver_Round2_spec (H : HashModel HS P) (r : RandomOTReceiever P HS)
    (msg : RandomOTSendRound1Message) (hc : r.choice = 0 ∨ r.choice = 1) :
    let n := msg.challenge.length
    let doubleHash := H.hashBytes (H.hashBytes r.randChoice n) n
    (r.Round2 H msg).1.receivedChallenge = msg.challenge ∧
    (r.Round2 H msg).1.hh_randChoice = doubleHash ∧
    (r.choice = 0 → (r.Round2 H msg).2.response = doubleHash) ∧
    (r.choice = 1 → (r.Round2 H msg).2.response = List.zipWith bxor doubleHash msg.challenge) ∧
    (r.Round2 H msg).2.response =
      (if r.choice = 1 then List.zipWith bxor doubleHash msg.challenge else doubleHash) ∧
    (r.choice = 0 → choiceMask r.choice = 0) ∧
    (r.choice = 1 → choiceMask r.choice = 255) ∧
    (r.Round2 H msg).1.randChoice = r.randChoice ∧
    (r.Round2 H msg).1.choice = r.choice ∧
    (r.Round2 H msg).1._B = r._B ∧
    (r.Round2 H msg).1.hash = r.hash ∧
    (n = SecBytes →
      doubleHash = H.hashBytes (H.hashBytes r.randChoice SecBytes) SecBytes) := by
  intro n doubleHash
  have h0 : r.choice = 0 → (r.Round2 H msg).2.response = doubleHash := by
    intro h
    simp only [RandomOTReceiever.Round2, h]
    exact mask_loop_zero _ _ (H.hashBytes_length _ _)
  have h1 : r.choice = 1 →
      (r.Round2 H msg).2.response = List.zipWith bxor doubleHash msg.challenge := by
    intro h
    simp only [RandomOTReceiever.Round2, h]
    exact mask_loop_one _ _
  refine ⟨rfl, rfl, h0, h1, ?_, ?_, ?_, rfl, rfl, rfl, rfl, ?_⟩
  · rcases hc with h | h
    · rw [h0 h, if_neg (by rw [h]; decide)]
    · rw [h1 h, if_pos h]
  · intro h
    rw [h]
    rfl
  · intro h
    rw [h]
    rfl
  · intro hn
    have h2 : doubleHash = H.hashBytes (H.hashBytes r.randChoice n) n := rfl
    rw [hn] at h2
    exact h2

/-- The theorem of claim C13 at `ZMod 7` with base point 1, `b = 3`, `a = 2`, choice 1: the
receiver's state after Round1 and the honest sender's challenge of `SecBytes` bytes. -/
theorem receiver_Round2_spec_witness :
    let B := (3 : ZMod 7) • (1 : ZMod 7)
    let r1 := (NewRandomOTReceiver ([] : List Nat) 1 { _B := B }).Round1 demoHash (1 : ZMod 7)
      (2 : ZMod 7)
    let r := r1.1
    let msg := ((NewRandomOTSender ([] : List Nat) { b := (3 : ZMod 7), _B := B }).Round1
      demoHash r1.2).2
    let n := msg.challenge.length
    let doubleHash := demoHash.hashBytes (demoHash.hashBytes r.randChoice n) n
    (r.choice = 0 ∨ r.choice = 1) ∧ n = SecBytes ∧
    (r.Round2 demoHash msg).1.receivedChallenge = msg.challenge ∧
    (r.Round2 demoHash msg).1.hh_randChoice = doubleHash ∧
    (r.choice = 0 → (r.Round2 demoHash msg).2.response = doubleHash) ∧
    (r.choice = 1 →
      (r.Round2 demoHash msg).2.response = List.zipWith bxor doubleHash msg.challenge) ∧
    (r.Round2 demoHash msg).2.response =
      (if r.choice = 1 then List.zipWith bxor doubleHash msg.challenge else doubleHash) ∧
    (r.choice = 0 → choiceMask r.choice = 0) ∧
    (r.choice = 1 → choiceMask r.choice = 255) ∧
    (r.Round2 demoHash msg).1.randChoice = r.randChoice ∧
    (r.Round2 demoHash msg).1.choice = r.choice ∧
    (r.Round2 demoHash msg).1._B = r._B ∧
    (r.Round2 demoHash msg).1.hash = r.hash ∧
    (n = SecBytes →
      doubleHash = demoHash.hashBytes (demoHash.hashBytes r.randChoice SecBytes) SecBytes) := by
  intro B r1 r msg n doubleHash
  have hc : r.choice = 0 ∨ r.choice = 1 := Or.inr rfl
  have hn : n = SecBytes := sender_Round1_challenge_length demoHash _ r1.2
  exact ⟨hc, hn, receiver_Round2_spec demoHash r msg hc⟩

section SenderLengths

variable [CommRing S] [AddCommGroup P] [Module S P]

/-- Claim C14. For every sender state and every first message, the challenge emitted by
Sender.Round1 and the stored `rand0`, `rand1`, `decommit0`, `decommit1`, `h_decommit0` all
have exactly `SecBytes` bytes; so the XOR loop, bounded by the shorter operand, reaches every
byte of the challenge: byte `i` is the XOR of byte `i` of `Hash(decommit1)` and of
`h_decommit0` for every `i < SecBytes`. -/
theorem sender_Round1_lengths (H : HashModel HS P) (r : RandomOTSender S P HS)
    (msg : RandomOTReceiveRound1Message P) :
    (r.Round1 H msg).2.challenge.length = SecBytes ∧
    (r.Round1 H msg).1.rand0.length = SecBytes ∧
    (r.Round1 H msg).1.rand1.length = SecBytes ∧
    (r.Round1 H msg).1.decommit0.length = SecBytes ∧
    (r.Round1 H msg).1.decommit1.length = SecBytes ∧
    (r.Round1 H msg).1.h_decommit0.length = SecBytes ∧
    (H.hashBytes (r.Round1 H msg).1.decommit1 SecBytes).length = SecBytes ∧
    (∀ i, i < SecBytes →
      (r.Round1 H msg).2.challenge.getD i 0 =
        bxor ((H.hashBytes (r.Round1 H msg).1.decommit1 SecBytes).getD i 0)
          ((r.Round1 H msg).1.h_decommit0.getD i 0)) := by
  have hd0 : (r.Round1 H msg).1.h_decommit0.length = SecBytes := H.hashBytes_length _ _
  refine ⟨sender_Round1_challenge_length H r msg, H.read_length _ _, H.read_length _ _,
    H.hashBytes_length _ _, H.hashBytes_length _ _, hd0, H.hashBytes_length _ _, ?_⟩
  intro i hi
  have hl := sender_Round1_challenge_length H r msg
  have h1 : i < (H.hashBytes (r.Round1 H msg).1.decommit1 SecBytes).length := by
    rw [H.hashBytes_length]; exact hi
  have h2 : i < (r.Round1 H msg).1.h_decommit0.length := by rw [hd0]; exact hi
  rw [List.getD_eq_getElem _ _ (by rw [hl]; exact hi), List.getD_eq_getElem _ _ h1,
    List.getD_eq_getElem _ _ h2]
  simp only [sender_Round1_challenge H r msg, List.getElem_zipWith]

end SenderLengths

/-- Claim C15 fails as stated: at `ZMod 7`, a receiver that is handed the empty challenge
after Round1 emits the empty response, not one of `SecBytes` bytes. -/
theorem response_length_counterexample :
    let r1 := ((NewRandomOTReceiver ([] : List Nat) 0
      { _B := (3 : ZMod 7) • (1 : ZMod 7) }).Round1 demoHash (1 : ZMod 7) (2 : ZMod 7)).1
    (r1.Round2 demoHash { challenge := [] }).2.response = [] ∧
    (r1.Round2 demoHash { challenge := [] }).2.response.length ≠ SecBytes := by
  intro r1
  exact ⟨rfl, by decide⟩

/-- Claim C15, amended. For every receiver state and every challenge message delivered to
it, the response emitted by Receiver.Round2 has exactly as many bytes as the delivered
challenge; it has `SecBytes` bytes when the challenge has. -/
theorem response_length (H : HashModel HS P) (r : RandomOTReceiever P HS)
    (msg : RandomOTSendRound1Message) :
    (r.Round2 H msg).2.response.length = msg.challenge.length ∧
    (msg.challenge.length = SecBytes → (r.Round2 H msg).2.response.length = SecBytes) := by
  have h : (r.Round2 H msg).2.response.length = msg.challenge.length := by
    simp [RandomOTReceiever.Round2, HashModel.hashBytes_length]
  exact ⟨h, fun hl => h.trans hl⟩

end RoundSpecs2

section Round3Errors

variable {S P HS : Type}

/-- Claim C16 fails as stated: at `ZMod 7`, with choice 0, the receiver holding the honest
challenge and sent two empty openings fails the challenge check, the receiver holding the
challenge made from the openings `[]` and `[1]` and sent these openings passes the challenge
check and fails the check of the chosen opening, and Round3 returns the same error in both
cases. -/
theorem round3_errors_counterexample :
    let r1 := ((NewRandomOTReceiver ([] : List Nat) 0
      { _B := (3 : ZMod 7) • (1 : ZMod 7) }).Round1 demoHash (1 : ZMod 7) (2 : ZMod 7))
    let s1 := (NewRandomOTSender ([] : List Nat)
      { b := (3 : ZMod 7), _B := (3 : ZMod 7) • (1 : ZMod 7) }).Round1 demoHash r1.2
    let rA := (r1.1.Round2 demoHash s1.2).1
    let mA : RandomOTSendRound2Message := { decommit0 := [], decommit1 := [] }
    let mB : RandomOTSendRound2Message := { decommit0 := [], decommit1 := [1] }
    let rB := (r1.1.Round2 demoHash
      { challenge := List.zipWith bxor (demoHash.hashBytes mB.decommit0 SecBytes)
          (demoHash.hashBytes mB.decommit1 SecBytes) }).1
    ConstantTimeCompare rA.receivedChallenge (rA.actualChallenge demoHash mA) ≠ 1 ∧
    ConstantTimeCompare rB.receivedChallenge (rB.actualChallenge demoHash mB) = 1 ∧
    ConstantTimeCompare (rB.h_decommitChoice demoHash mB) rB.hh_randChoice ≠ 1 ∧
    rA.Round3 demoHash mA = rB.Round3 demoHash mB := by
  intro r1 s1 rA mA mB rB
  have hA : ConstantTimeCompare rA.receivedChallenge (rA.actualChallenge demoHash mA) ≠ 1 := by
    decide
  have hB1 : ConstantTimeCompare rB.receivedChallenge (rB.actualChallenge demoHash mB) = 1 := by
    decide
  have hB2 : ConstantTimeCompare (rB.h_decommitChoice demoHash mB) rB.hh_randChoice ≠ 1 := by
    decide
  refine ⟨hA, hB1, hB2, ?_⟩
  unfold RandomOTReceiever.Round3
  rw [if_pos hA, if_neg (not_not.mpr hB1), if_pos hB2]

/-- Claim C16, amended. No failure of Receiver.Round3 is swallowed: for every receiver state
and every pair of openings, Round3 returns an error when the challenge check fails, returns
an error when the challenge check passes and the check of the chosen opening fails, and
returns the pad when both pass. The error is the same message in both failing cases, so it
is told apart from success but not by cause. -/
theorem round3_errors (H : HashModel HS P) (r : RandomOTReceiever P HS)
    (msg : RandomOTSendRound2Message) :
    (ConstantTimeCompare r.receivedChallenge (r.actualChallenge H msg) ≠ 1 →
      r.Round3 H msg = .error "RandomOTReceive Round 3: incorrect decommitment") ∧
    (ConstantTimeCompare r.receivedChallenge (r.actualChallenge H msg) = 1 →
      ConstantTimeCompare (r.h_decommitChoice H msg) r.hh_randChoice ≠ 1 →
      r.Round3 H msg = .error "RandomOTReceive Round 3: incorrect decommitment") ∧
    (ConstantTimeCompare r.receivedChallenge (r.actualChallenge H msg) = 1 →
      ConstantTimeCompare (r.h_decommitChoice H msg) r.hh_randChoice = 1 →
      r.Round3 H msg = .ok r.randChoice) ∧
    (∀ e, r.Round3 H msg = .error e →
      e = "RandomOTReceive Round 3: incorrect decommitment") := by
  refine ⟨?_, ?_, ?_, ?_⟩
  · intro h
    unfold RandomOTReceiever.Round3
    rw [if_pos h]
  · intro h1 h2
    unfold RandomOTReceiever.Round3
    rw [if_neg (not_not.mpr h1), if_pos h2]
  · intro h1 h2
    unfold RandomOTReceiever.Round3
    rw [if_neg (not_not.mpr h1), if_neg (not_not.mpr h2)]
  · intro e he
    unfold RandomOTReceiever.Round3 at he
    split at he
    · exact (Except.error.inj he).symm
    · split at he
      · exact (Except.error.inj he).symm
      · exact absurd he (by simp)

end Round3Errors

section Reuse

variable {S P HS : Type} [CommRing S] [AddCommGroup P] [Module S P]

/-- An honest execution from the setup pair `(b, b • G)` succeeds and gives the receiver the
sender's pad of index `c`. -/
theorem honest_run_from_setup (H : HashModel HS P) (G : P) (b : S) (t : HS) (c : Nat) (a : S)
    (hc : c = 0 ∨ c = 1) :
    let r1 := (NewRandomOTReceiver t c { _B := b • G }).Round1 H G a
    let s1 := (NewRandomOTSender t { b := b, _B := b • G }).Round1 H r1.2
    let r2 := r1.1.Round2 H s1.2
    ∃ m res, s1.1.Round2 r2.2 = .ok (m, res) ∧
      r2.1.Round3 H m = .ok (if c = 0 then res.Rand0 else res.Rand1) := by
  intro r1 s1 r2
  obtain ⟨_, h2, h3⟩ := honest_run H G t b a c hc
  refine ⟨_, _, h2, ?_⟩
  rw [h3]
  exact congrArg Except.ok (honest_pad H G t b a c hc)

/-- Claim C17. The rounds leave the setup values alone: Sender.Round1 keeps `b`, `B` and
the sender's transcript of a state built by NewRandomOTSender, and Receiver.Round1 and
Receiver.Round2 keep `B` and the choice of a state built by NewRandomOTReceiver.
Sender.Round2 and Receiver.Round3 assign no field of their state, which is why they have no
state among their results here. Hence, for a setup pair with `B = b • G` on both sides, every
execution of any list of executions (each with its own transcript, choice in {0,1} and
scalar) succeeds at Sender.Round2 and Receiver.Round3 and gives the receiver the sender's
pad of its choice. -/
theorem setup_reusable (H : HashModel HS P) (G : P) (send : RandomOTSetupSendResult S P)
    (recv : RandomOTSetupReceiveResult P) (hB : send._B = send.b • G)
    (hR : recv._B = send._B) :
    (∀ (t : HS) (msg : RandomOTReceiveRound1Message P),
      (NewRandomOTSender t send).b = send.b ∧
      (NewRandomOTSender t send)._B = send._B ∧
      ((NewRandomOTSender t send).Round1 H msg).1.b = send.b ∧
      ((NewRandomOTSender t send).Round1 H msg).1._B = send._B ∧
      ((NewRandomOTSender t send).Round1 H msg).1.hash = t) ∧
    (∀ (t : HS) (c : Nat) (a : S) (msg : RandomOTSendRound1Message),
      (NewRandomOTReceiver t c recv)._B = recv._B ∧
      ((NewRandomOTReceiver t c recv).Round1 H G a).1._B = recv._B ∧
      ((NewRandomOTReceiver t c recv).Round1 H G a).1.choice = c ∧
      (((NewRandomOTReceiver t c recv).Round1 H G a).1.Round2 H msg).1._B = recv._B ∧
      (((NewRandomOTReceiver t c recv).Round1 H G a).1.Round2 H msg).1.choice = c) ∧
    (∀ runs : List (HS × Nat × S), (∀ x ∈ runs, x.2.1 = 0 ∨ x.2.1 = 1) →
      ∀ x ∈ runs,
        let r1 := (NewRandomOTReceiver x.1 x.2.1 recv).Round1 H G x.2.2
        let s1 := (NewRandomOTSender x.1 send).Round1 H r1.2
        let r2 := r1.1.Round2 H s1.2
        ∃ m res, s1.1.Round2 r2.2 = .ok (m, res) ∧
          r2.1.Round3 H m = .ok (if x.2.1 = 0 then res.Rand0 else res.Rand1)) := by
  refine ⟨fun t msg => ⟨rfl, rfl, rfl, rfl, rfl⟩, fun t c a msg => ⟨rfl, rfl, rfl, rfl, rfl⟩, ?_⟩
  intro runs hruns x hx
  obtain ⟨b, B⟩ := send
  obtain ⟨B'⟩ := recv
  simp only at hB hR
  subst hB
  subst hR
  exact honest_run_from_setup H G b x.1 x.2.1 x.2.2 (hruns x hx)

/-- The theorem of claim C17 at `ZMod 7` with base point 1 and the setup pair `(3, 3 • 1)`. -/
theorem setup_reusable_witness :
    let send : RandomOTSetupSendResult (ZMod 7) (ZMod 7) :=
      { b := 3, _B := (3 : ZMod 7) • (1 : ZMod 7) }
    let recv : RandomOTSetupReceiveResult (ZMod 7) := { _B := (3 : ZMod 7) • (1 : ZMod 7) }
    send._B = send.b • (1 : ZMod 7) ∧ recv._B = send._B ∧
    (∀ runs : List (List Nat × Nat × ZMod 7), (∀ x ∈ runs, x.2.1 = 0 ∨ x.2.1 = 1) →
      ∀ x ∈ runs,
        let r1 := (NewRandomOTReceiver x.1 x.2.1 recv).Round1 demoHash (1 : ZMod 7) x.2.2
        let s1 := (NewRandomOTSender x.1 send).Round1 demoHash r1.2
        let r2 := r1.1.Round2 demoHash s1.2
        ∃ m res, s1.1.Round2 r2.2 = .ok (m, res) ∧
          r2.1.Round3 demoHash m = .ok (if x.2.1 = 0 then res.Rand0 else res.Rand1)) := by
  intro send recv
  exact ⟨rfl, rfl, (setup_reusable demoHash (1 : ZMod 7) send recv rfl rfl).2.2⟩

end Reuse

section EmptyChallenge

variable {S P HS : Type}

/-- Claim C19. When the stored challenge is empty, Round3 compares empty buffers only: the
recomputed challenge and the selected digest are empty. So after a zero-length challenge was
delivered to Round2, and on a state on which Round2 never ran (fresh, or after Round1 only,
where the stored double hash is empty too), Round3 returns the pad for every pair of
openings. Round2 always stores a double hash as long as the challenge, so this covers every
state the rounds can produce with an empty stored challenge. -/
theorem round3_empty_challenge (H : HashModel HS P) :
    (∀ (r : RandomOTReceiever P HS) (msg : RandomOTSendRound2Message),
      r.receivedChallenge = [] →
      r.actualChallenge H msg = [] ∧ r.h_decommitChoice H msg = [] ∧
      ConstantTimeCompare r.receivedChallenge (r.actualChallenge H msg) = 1) ∧
    (∀ (r : RandomOTReceiever P HS) (msg : RandomOTSendRound2Message),
      r.receivedChallenge = [] → r.hh_randChoice.length = r.receivedChallenge.length →
      r.Round3 H msg = .ok r.randChoice) ∧
    (∀ (r : RandomOTReceiever P HS) (msg : RandomOTSendRound2Message),
      (r.Round2 H { challenge := [] }).1.Round3 H msg = .ok r.randChoice) ∧
    (∀ (t : HS) (c : Nat) (recv : RandomOTSetupReceiveResult P)
      (msg : RandomOTSendRound2Message),
      (NewRandomOTReceiver t c recv).Round3 H msg = .ok []) ∧
    (∀ (r : RandomOTReceiever P HS) (m1 : RandomOTSendRound1Message),
      (r.Round2 H m1).1.hh_randChoice.length = (r.Round2 H m1).1.receivedChallenge.length) := by
  refine ⟨?_, ?_, ?_, ?_, ?_⟩
  · intro r msg h1
    have ha : r.actualChallenge H msg = [] := by
      simp [RandomOTReceiever.actualChallenge, h1, HashModel.hashBytes, HashModel.read]
    have hd : r.h_decommitChoice H msg = [] := by
      simp [RandomOTReceiever.h_decommitChoice, h1, HashModel.hashBytes, HashModel.read]
    refine ⟨ha, hd, ?_⟩
    rw [ha, h1]
    exact ConstantTimeCompare_self []
  · intro r msg h1 hlen
    have h2 : r.hh_randChoice = [] := by
      rw [h1] at hlen
      exact List.length_eq_zero.mp hlen
    exact Round3_of_empty H r msg h1 h2
  · intro r msg
    exact Round3_of_empty H _ msg rfl rfl
  · intro t c recv msg
    exact Round3_of_empty H _ msg rfl rfl
  · intro r m1
    simp [RandomOTReceiever.Round2, HashModel.hashBytes_length]

end EmptyChallenge

section SelectiveFailure

variable {S P HS : Type}

/-- XOR with a fixed slice of the same length is injective. -/
theorem zipWith_bxor_left_cancel (x y z : List Byte) (hy : x.length = y.length)
    (hz : x.length = z.length) (h : List.zipWith bxor x y = List.zipWith bxor x z) : y = z := by
  have h1 := zipWith_bxor_cancel x y hy
  rw [h, zipWith_bxor_cancel x z hz] at h1
  exact h1.symm

/-- Sender.Round2 returns a message and a result exactly on the stored `h_decommit0`. -/
theorem sender_Round2_ok_iff (r : RandomOTSender S P HS) (msg : RandomOTReceiveRound2Message) :
    (∃ m res, r.Round2 msg = .ok (m, res)) ↔ msg.response = r.h_decommit0 := by
  unfold RandomOTSender.Round2
  by_cases h : msg.response = r.h_decommit0
  · rw [if_neg (not_not.mpr ((ConstantTimeCompare_eq_one _ _).mpr h))]
    exact ⟨fun _ => h, fun _ => ⟨_, _, rfl⟩⟩
  · rw [if_pos ((ConstantTimeCompare_ne_one _ _).mpr h)]
    constructor
    · rintro ⟨m, res, hm⟩
      exact absurd hm (by simp)
    · intro h'
      exact absurd h' h

variable [CommRing S] [AddCommGroup P] [Module S P]

/-- Claim C20. In an honest run up to Sender.Round1 with challenge `ch`, when the receiver is
handed a `ch'` of the same length with `ch' ≠ ch` and otherwise follows Round2, the sender's
Round2 accepts the receiver's response if and only if the choice is 0 (for a choice in
{0,1}). -/
theorem acceptance_depends_on_choice (H : HashModel HS P) (G : P) (t : HS) (b a : S) (c : Nat)
    (ch' : List Byte) (hc : c = 0 ∨ c = 1) :
    let B := b • G
    let r1 := (NewRandomOTReceiver t c { _B := B }).Round1 H G a
    let s1 := (NewRandomOTSender t { b := b, _B := B }).Round1 H r1.2
    ch'.length = s1.2.challenge.length → ch' ≠ s1.2.challenge →
    ((∃ m res, s1.1.Round2 (r1.1.Round2 H { challenge := ch' }).2 = .ok (m, res)) ↔ c = 0) := by
  intro B r1 s1 hlen hne
  have hl : ch'.length = SecBytes := by
    rw [hlen]; exact sender_Round1_challenge_length H _ r1.2
  have hpad : r1.1.randChoice = if c = 0 then s1.1.rand0 else s1.1.rand1 :=
    honest_pad H G t b a c hc
  have hch := sender_Round1_challenge H (NewRandomOTSender t { b := b, _B := B }) r1.2
  rw [sender_Round2_ok_iff]
  rcases hc with h | h
  · subst h
    simp only [if_true] at hpad
    have hresp : (r1.1.Round2 H { challenge := ch' }).2.response = s1.1.h_decommit0 := by
      have hc0 : r1.1.choice = 0 := rfl
      simp only [RandomOTReceiever.Round2, hc0, hpad, hl]
      rw [mask_loop_zero _ _ (by rw [H.hashBytes_length, hl])]
      rfl
    exact ⟨fun _ => rfl, fun _ => hresp⟩
  · subst h
    simp only [if_false, one_ne_zero] at hpad
    have hresp : (r1.1.Round2 H { challenge := ch' }).2.response =
        List.zipWith bxor (H.hashBytes s1.1.decommit1 SecBytes) ch' := by
      have hc1 : r1.1.choice = 1 := rfl
      simp only [RandomOTReceiever.Round2, hc1, hpad, hl]
      rw [mask_loop_one]
      rfl
    have hd0 : s1.1.h_decommit0 =
        List.zipWith bxor (H.hashBytes s1.1.decommit1 SecBytes) s1.2.challenge := by
      rw [hch]
      exact (zipWith_bxor_cancel _ _
        (by rw [H.hashBytes_length]; exact (H.hashBytes_length _ _).symm)).symm
    constructor
    · intro heq
      rw [hresp, hd0] at heq
      exact absurd (zipWith_bxor_left_cancel _ _ _ (by rw [H.hashBytes_length, hl])
        (by rw [H.hashBytes_length, ← hlen, hl]) heq) hne
    · intro h01
      exact absurd h01 (by decide)

/-- The theorem of claim C20 at `ZMod 7` with base point 1, `b = 3`, `a = 2`, choice 1, the
first byte of the honest challenge being replaced by zero. -/
theorem acceptance_depends_on_choice_witness :
    let B := (3 : ZMod 7) • (1 : ZMod 7)
    let r1 := (NewRandomOTReceiver ([] : List Nat) 1 { _B := B }).Round1 demoHash (1 : ZMod 7)
      (2 : ZMod 7)
    let s1 := (NewRandomOTSender ([] : List Nat) { b := (3 : ZMod 7), _B := B }).Round1
      demoHash r1.2
    let ch' := s1.2.challenge.set 0 0
    ((1 : Nat) = 0 ∨ (1 : Nat) = 1) ∧
    ch'.length = s1.2.challenge.length ∧ ch' ≠ s1.2.challenge ∧
    ((∃ m res, s1.1.Round2 (r1.1.Round2 demoHash { challenge := ch' }).2 = .ok (m, res)) ↔
      (1 : Nat) = 0) := by
  intro B r1 s1 ch'
  have hlen : ch'.length = s1.2.challenge.length := List.length_set _ _ _
  have hne : ch' ≠ s1.2.challenge := by decide
  exact ⟨Or.inr rfl, hlen, hne,
    acceptance_depends_on_choice demoHash (1 : ZMod 7) [] (3 : ZMod 7) (2 : ZMod 7) 1 ch'
      (Or.inr rfl) hlen hne⟩

end SelectiveFailure

end OT

/-! ## Starting a signing session -/

namespace CMP

section StartFacts

variable {S P Config PartyID Pool Helper PaillierKey PaillierSecret PedersenParams : Type}
variable [CommRing S] [AddCommGroup P] [Module S P] [DecidableEq PartyID]

/-- On a message of length 0 the start function returns the message error and has called
neither `round.NewSession` nor `config.CanSign`. -/
theorem StartSign_of_length_zero
    (D : SignDeps S P Config PartyID Pool Helper PaillierKey PaillierSecret PedersenParams)
    (config : Config) (signers : List PartyID) (message : List OT.Byte) (pl : Pool)
    (justinfo : Bool) (sessionID : List OT.Byte) (h : message.length = 0) :
    StartSign D config signers message pl justinfo sessionID =
      (.error "sign.Create: message is nil", []) := by
  unfold StartSign
  rw [if_pos h]

/-- Claim C21. For every config, signer list and session identifier, the start function
returned by StartSign, and so the one returned by cmp.Sign, returns the message error and
no session whenever the message has length 0, whatever `round.NewSession` and
`config.CanSign` would answer, and it has then called neither of them: the check of the
message comes before the creation of the session and before the check of the signers. On
a non-empty message the creation of the session is the first call made. -/
theorem StartSign_empty_message
    (D : SignDeps S P Config PartyID Pool Helper PaillierKey PaillierSecret PedersenParams)
    (config : Config) (signers : List PartyID) (pl : Pool) (justinfo : Bool)
    (sessionID : List OT.Byte) :
    StartSign D config signers [] pl justinfo sessionID =
      (.error "sign.Create: message is nil", []) ∧
    Sign D config signers [] pl justinfo sessionID =
      (.error "sign.Create: message is nil", []) ∧
    (∀ message : List OT.Byte, message.length = 0 →
      StartSign D config signers message pl justinfo sessionID =
        (.error "sign.Create: message is nil", []) ∧
      Sign D config signers message pl justinfo sessionID =
        (.error "sign.Create: message is nil", [])) ∧
    (∀ message : List OT.Byte, message ≠ [] →
      ∃ rest, (StartSign D config signers message pl justinfo sessionID).2 =
        SignCall.newSession :: rest) := by
  refine ⟨StartSign_of_length_zero D config signers [] pl justinfo sessionID rfl,
    StartSign_of_length_zero D config signers [] pl justinfo sessionID rfl, ?_, ?_⟩
  · intro message h
    exact ⟨StartSign_of_length_zero D config signers message pl justinfo sessionID h,
      StartSign_of_length_zero D config signers message pl justinfo sessionID h⟩
  · intro message hne
    have hlen : ¬ message.length = 0 := fun h => hne (List.length_eq_zero.mp h)
    unfold StartSign
    rw [if_neg hlen]
    dsimp only
    split
    · exact ⟨_, rfl⟩
    · split
      · exact ⟨_, rfl⟩
      · exact ⟨_, rfl⟩

end StartFacts

end CMP
